import Mathlib

/-!
Verification development for the pressplaystupid playlist-creator video
resolution engine.  Strings are embedded as lists of characters (`Str`),
and the TypeScript functions of the repository are translated into
executable Lean definitions over that representation:

* `resolveVideoUrl`   — src/src/lib/video-resolver.ts (client resolver)
* `getEmbedUrl`       — the PlaylistCreator component's embed derivation
* `handler`           — pages/api/resolve.ts (server resolver with cache)

The WHATWG `new URL` parser is modelled by `parseUrl`, a simplified but
executable parser covering ASCII http(s)-style URLs: scheme, optional
authority with userinfo/port, pathname, query.  Percent-decoding,
dot-segment normalization, IPv6 hosts and backslash separators are not
modelled; none of the verified properties depend on them.
-/

set_option maxRecDepth 4096

abbrev Str := List Char

def lit (s : String) : Str := s.data

/-- Lowercase an ASCII string, as `String.prototype.toLowerCase` does on
ASCII input. -/
def toLower (s : Str) : Str := s.map Char.toLower

/-- Substring containment check, as `String.prototype.includes(needle)`. -/
def containsStr (needle : Str) : Str → Bool
  | [] => needle.isEmpty
  | c :: r => needle.isPrefixOf (c :: r) || containsStr needle r

/-- The characters following the last occurrence of `c` (the whole string
when `c` is absent), as used for userinfo stripping and
`substring(lastIndexOf(c) + 1)`. -/
def afterLastChar (c : Char) (s : Str) : Str :=
  (s.reverse.takeWhile (fun a => a != c)).reverse

/-- Split on a single character, as `String.prototype.split(c)`. -/
def splitOnChar (c : Char) : Str → List Str
  | [] => [[]]
  | a :: r =>
    if a == c then [] :: splitOnChar c r
    else
      match splitOnChar c r with
      | [] => [[a]]
      | s :: ss => (a :: s) :: ss

/-- The text after the first occurrence of substring `sep`, or `none` when
`sep` does not occur (used for `split(sep)[1]` access). -/
def afterFirstStr (sep : Str) : Str → Option Str
  | [] => if sep.isEmpty then some [] else none
  | c :: r =>
    if sep.isPrefixOf (c :: r) then some ((c :: r).drop sep.length)
    else afterFirstStr sep r

/-- The text before the first occurrence of substring `sep` (the whole
string when `sep` is absent). -/
def uptoFirstStr (sep : Str) : Str → Str
  | [] => []
  | c :: r =>
    if sep.isPrefixOf (c :: r) then []
    else c :: uptoFirstStr sep r

/-- JavaScript truthiness default for strings: `v || d`. -/
def jsOrD (v d : Str) : Str := if v.isEmpty then d else v

/-- JavaScript `v || d` where `v` may be absent (`undefined`/`null`). -/
def jsOptD (v : Option Str) (d : Str) : Str :=
  match v with
  | some s => if s.isEmpty then d else s
  | none => d

/-- JavaScript `v || null` coercion into an optional field: absent and
empty both become `null`. -/
def jsOrNull (v : Option Str) : Option Str :=
  match v with
  | some s => if s.isEmpty then none else some s
  | none => none

/-- ASCII whitespace trim, as `String.prototype.trim` on ASCII input. -/
def jsTrim (s : Str) : Str :=
  ((s.dropWhile Char.isWhitespace).reverse.dropWhile Char.isWhitespace).reverse

/-! ## URL parser model -/

structure UrlObj where
  scheme : Str
  host : Str
  port : Str
  pathname : Str
  query : Str
  deriving DecidableEq, Repr

def schemeChar (c : Char) : Bool :=
  c.isAlphanum || c == '+' || c == '-' || c == '.'

def validScheme (s : Str) : Bool :=
  match s with
  | [] => false
  | c :: r => c.isAlpha && r.all schemeChar

/-- Characters that terminate the authority component. -/
def autChar (c : Char) : Bool := !(c == '/' || c == '?' || c == '#')

/-- Characters that may appear in the pathname (before query/fragment). -/
def pqChar (c : Char) : Bool := !(c == '?' || c == '#')

/-- Characters the WHATWG host parser rejects outright (subset). -/
def forbiddenHost (c : Char) : Bool :=
  c == ' ' || c == '<' || c == '>' || c == '\\' || c == '^' || c == '|' ||
  c == '[' || c == ']'

def schemeOf (s : Str) : Str := s.takeWhile (fun c => c != ':')

def afterScheme (s : Str) : Str := s.dropWhile (fun c => c != ':')

/-- Parse `host[:port]` (after userinfo stripping); `strict` requires a
nonempty host as the special http(s) schemes do. -/
def parseAuthority (strict : Bool) (a : Str) : Option (Str × Str) :=
  let hp := afterLastChar '@' a
  let h := hp.takeWhile (fun c => c != ':')
  let p := (hp.dropWhile (fun c => c != ':')).drop 1
  if strict && h.isEmpty then none
  else if h.any forbiddenHost then none
  else if p.all Char.isDigit then some (toLower h, p)
  else none

def queryOf : Str → Str
  | '?' :: qs => qs.takeWhile (fun c => c != '#')
  | _ => []

def mkUrl (scheme : Str) (hp : Str × Str) (t : Str) : UrlObj :=
  { scheme := scheme, host := hp.1, port := hp.2,
    pathname := if (t.takeWhile pqChar).isEmpty then lit "/" else t.takeWhile pqChar,
    query := queryOf (t.dropWhile pqChar) }

/-- Special-scheme (http/https) parse: any run of slashes, then a
mandatory nonempty authority, then path and query. -/
def parseSpecial (scheme rest : Str) : Option UrlObj :=
  let r1 := rest.dropWhile (fun c => c == '/')
  match parseAuthority true (r1.takeWhile autChar) with
  | none => none
  | some hp => some (mkUrl scheme hp (r1.dropWhile autChar))

/-- Non-special scheme parse: authority only after a literal `//`,
otherwise an opaque path. -/
def parseOther (scheme rest : Str) : Option UrlObj :=
  match rest with
  | '/' :: '/' :: r2 =>
    match parseAuthority false (r2.takeWhile autChar) with
    | none => none
    | some hp => some (mkUrl scheme hp (r2.dropWhile autChar))
  | _ =>
    some { scheme := scheme, host := [], port := [],
           pathname := rest.takeWhile pqChar,
           query := queryOf (rest.dropWhile pqChar) }

def parseTail (scheme rest : Str) : Option UrlObj :=
  if toLower scheme == lit "http" || toLower scheme == lit "https" then
    parseSpecial scheme rest
  else parseOther scheme rest

/-- Model of `new URL(s)`: `none` models the thrown `TypeError`.  The
scheme is stored as written; `.protocol`-style comparisons lowercase it. -/
def parseUrl (s : Str) : Option UrlObj :=
  match afterScheme s with
  | [] => none
  | _ :: rest =>
    if validScheme (schemeOf s) then parseTail (schemeOf s) rest else none

/-- The `origin` property: lowercased scheme, host, non-default port. -/
def origin (u : UrlObj) : Str :=
  let sl := toLower u.scheme
  let portPart : Str :=
    if u.port.isEmpty || (sl == lit "https" && u.port == lit "443") ||
        (sl == lit "http" && u.port == lit "80") then []
    else ':' :: u.port
  sl ++ lit "://" ++ u.host ++ portPart

def pairKey (p : Str) : Str := p.takeWhile (fun c => c != '=')

def pairVal (p : Str) : Str := (p.dropWhile (fun c => c != '=')).drop 1

/-- Model of `url.searchParams.get(k)` (without percent-decoding). -/
def getParam (u : UrlObj) (k : Str) : Option Str :=
  (((splitOnChar '&' u.query).filter (fun p => !p.isEmpty)).filter
      (fun p => pairKey p == k)).head?.map pairVal

/-- The input normalization shared by both client derivations:
`url.startsWith('http') ? url : 'https://' + url`. -/
def normalizeUrl (s : Str) : Str :=
  if (lit "http").isPrefixOf s then s else lit "https://" ++ s

/-! ## Client resolver (src/src/lib/video-resolver.ts) -/

/-- The regex character class `[a-zA-Z0-9_-]` of the YouTube ID patterns. -/
def ytChar (c : Char) : Bool := c.isAlphanum || c == '_' || c == '-'

/-- Attempt the regex `<l>([p]+)` at the head of `s`: the literal prefix
`l` followed by a nonempty greedy run of class characters. -/
def matchAt (l : Str) (p : Char → Bool) (s : Str) : Option Str :=
  if l.isPrefixOf s then
    let run := (s.drop l.length).takeWhile p
    if run.isEmpty then none else some run
  else none

/-- Leftmost match of the regex `<l>([p]+)` anywhere in the string,
returning the captured run — the semantics of `url.match(/l([p]+)/)`. -/
def findLit (l : Str) (p : Char → Bool) : Str → Option Str
  | [] => none
  | c :: r =>
    match matchAt l p (c :: r) with
    | some run => some run
    | none => findLit l p r

/-- Decidable certificate that no prefix-window of `l` fits anywhere in
`r` while staying inside `r` (positions whose window would overflow into
the appended suffix are handled separately by `isPrefixOf_overflow`). -/
def scanMissOk (l : Str) : Str → Bool
  | [] => true
  | c :: r =>
    (if l.length ≤ r.length + 1 then !(l.isPrefixOf (c :: r)) else true) &&
      scanMissOk l r

/-- Decidable certificate that `l` does not prefix-match at any position
strictly before the junction of `pre ++ l ++ …`. -/
def noEarlyHit (l : Str) : Str → Bool
  | [] => true
  | c :: r => !(l.isPrefixOf ((c :: r) ++ l)) && noEarlyHit l r

/-- Model of `extractYouTubeId` (identical in video-resolver.ts and
pages/api/resolve.ts): three regex patterns in order, then a `new URL`
fallback reading the `v` query parameter (`|| null` maps empty to null). -/
def extractYouTubeId (s : Str) : Option Str :=
  match findLit (lit "youtube.com/watch?v=") ytChar s with
  | some v => some v
  | none =>
  match findLit (lit "youtu.be/") ytChar s with
  | some v => some v
  | none =>
  match findLit (lit "youtube.com/shorts/") ytChar s with
  | some v => some v
  | none =>
  match parseUrl s with
  | some u =>
    match getParam u (lit "v") with
    | some v => if v.isEmpty then none else some v
    | none => none
  | none => none

/-- One alternative of the Vimeo regex: consume `channels/[^\/]+/`. -/
def vimeoChan (t : Str) : Option Str :=
  if (lit "channels/").isPrefixOf t then
    let r := t.drop 9
    let seg := r.takeWhile (fun c => c != '/')
    if seg.isEmpty then none
    else
      match r.drop seg.length with
      | '/' :: r2 => some r2
      | _ => none
  else none

/-- One alternative of the Vimeo regex: consume `groups/[^\/]+/videos/`. -/
def vimeoGroups (t : Str) : Option Str :=
  if (lit "groups/").isPrefixOf t then
    let r := t.drop 7
    let seg := r.takeWhile (fun c => c != '/')
    if seg.isEmpty then none
    else if (lit "/videos/").isPrefixOf (r.drop seg.length) then
      some ((r.drop seg.length).drop 8)
    else none
  else none

/-- One alternative of the Vimeo regex: consume `album/[^\/]+/video/`. -/
def vimeoAlbum (t : Str) : Option Str :=
  if (lit "album/").isPrefixOf t then
    let r := t.drop 6
    let seg := r.takeWhile (fun c => c != '/')
    if seg.isEmpty then none
    else if (lit "/video/").isPrefixOf (r.drop seg.length) then
      some ((r.drop seg.length).drop 7)
    else none
  else none

/-- The final `(\d+)` capture of the Vimeo regex. -/
def vimeoDigits (t : Str) : Option Str :=
  let d := t.takeWhile Char.isDigit
  if d.isEmpty then none else some d

/-- The alternation `(?:channels\/[^\/]+\/|groups\/[^\/]+\/videos\/|album\/[^\/]+\/video\/|video\/|)` followed by `(\d+)`, tried at one position
in the regex's alternative order. -/
def vimeoAt (t : Str) : Option Str :=
  match (vimeoChan t).bind vimeoDigits with
  | some d => some d
  | none =>
  match (vimeoGroups t).bind vimeoDigits with
  | some d => some d
  | none =>
  match (vimeoAlbum t).bind vimeoDigits with
  | some d => some d
  | none =>
  match (if (lit "video/").isPrefixOf t then vimeoDigits (t.drop 6) else none) with
  | some d => some d
  | none => vimeoDigits t

/-- Leftmost-match scan for the Vimeo regex
`/vimeo\.com\/(?:channels\/[^\/]+\/|groups\/[^\/]+\/videos\/|album\/[^\/]+\/video\/|video\/|)(\d+)/`. -/
def extractVimeoId : Str → Option Str
  | [] => none
  | c :: r =>
    match (if (lit "vimeo.com/").isPrefixOf (c :: r) then
             vimeoAt ((c :: r).drop 10) else none) with
    | some d => some d
    | none => extractVimeoId r

/-- The recognized direct-video extensions of the client resolver. -/
def videoExtensions : List Str :=
  [lit ".mp4", lit ".webm", lit ".ogg", lit ".mov", lit ".avi", lit ".mkv", lit ".m4v"]

/-- Model of the client `isDirectVideoPath(url)`: parses the raw string
with `new URL`; `none` models the thrown `TypeError` on an unparseable
input (which the caller's `catch` turns into a failure result). -/
def isDirectVideoPathQ (s : Str) : Option Bool :=
  (parseUrl s).map
    (fun u => videoExtensions.any (fun e => e.isSuffixOf (toLower u.pathname)))

/-- The `embed` object of the client result. -/
structure EmbedC where
  url : Option Str := none
  html : Option Str := none
  deriving DecidableEq, Repr

/-- The client `ResolveResult` interface; absent fields are `none`. -/
structure RResult where
  ok : Bool
  url : Option Str := none
  provider : Option Str := none
  title : Option Str := none
  description : Option Str := none
  thumbnail : Option Str := none
  embed : Option EmbedC := none
  media : Option (List Str) := none
  error : Option Str := none
  deriving DecidableEq, Repr

/-- The `split('/').pop()` idiom: last segment of a slash-split. -/
def lastSeg (p : Str) : Str := (splitOnChar '/' p).getLastD []

/-- The Dailymotion ID extraction `pathname.split('/video/')[1]?.split('_')[0]` shared by both client derivations. -/
def dailymotionId (pathname : Str) : Option Str :=
  (afterFirstStr (lit "/video/") pathname).map
    (fun r => (uptoFirstStr (lit "/video/") r).takeWhile (fun c => c != '_'))

/-- Model of `resolveVideoUrl` from src/src/lib/video-resolver.ts.
`winHost` stands for `window.location.hostname` (used by the Twitch
branch).  The whole body sits in a `try`: the raw-string `new URL` inside
`isDirectVideoPath` can throw, which the `catch` converts into
`{ok:false, error}`; the error message is engine-dependent and modelled
by the fixed string `Invalid URL`. -/
def resolveVideoUrl (winHost s : Str) : RResult :=
  match parseUrl (normalizeUrl s) with
  | none => { ok := false, error := some (lit "Invalid URL") }
  | some u =>
    let hostname := toLower u.host
    match isDirectVideoPathQ s with
    | none => { ok := false, error := some (lit "Invalid URL") }
    | some true =>
      { ok := true, url := some s, provider := some (lit "direct"),
        title := some (jsOrD (lastSeg u.pathname) (lit "Direct Video")),
        embed := some { url := some s }, media := some [s] }
    | some false =>
      match extractYouTubeId s with
      | some i =>
        { ok := true, url := some s, provider := some (lit "youtube"),
          title := some (lit "YouTube Video"),
          thumbnail := some (lit "https://i.ytimg.com/vi/" ++ i ++ lit "/hqdefault.jpg"),
          embed := some { url := some (lit "https://www.youtube.com/embed/" ++ i ++
            lit "?autoplay=1&enablejsapi=1") } }
      | none =>
      match extractVimeoId s with
      | some i =>
        { ok := true, url := some s, provider := some (lit "vimeo"),
          title := some (lit "Vimeo Video"),
          embed := some { url := some (lit "https://player.vimeo.com/video/" ++ i ++
            lit "?autoplay=1") } }
      | none =>
      if containsStr (lit "instagram.com") hostname then
        { ok := true, url := some s, provider := some (lit "instagram"),
          title := some (lit "Instagram Video"),
          embed := some { url := some (s ++ lit "/embed") } }
      else if containsStr (lit "tiktok.com") hostname then
        { ok := true, url := some s, provider := some (lit "tiktok"),
          title := some (lit "TikTok Video"),
          embed := some { url := some (lit "https://www.tiktok.com/embed/v2/" ++ s) } }
      else if containsStr (lit "twitch.tv") hostname &&
          (containsStr (lit "/videos/") u.pathname &&
            !(lastSeg u.pathname).isEmpty) then
        { ok := true, url := some s, provider := some (lit "twitch"),
          title := some (lit "Twitch Video"),
          embed := some { url := some (lit "https://player.twitch.tv/?video=" ++
            lastSeg u.pathname ++ lit "&parent=" ++ winHost) } }
      else if containsStr (lit "dailymotion.com") hostname &&
          !((dailymotionId u.pathname).getD []).isEmpty then
        { ok := true, url := some s, provider := some (lit "dailymotion"),
          title := some (lit "Dailymotion Video"),
          embed := some { url := some (lit "https://www.dailymotion.com/embed/video/" ++
            (dailymotionId u.pathname).getD []) } }
      else
        { ok := true, url := some s, provider := some (lit "unknown"),
          title := some (lit "Video from " ++ hostname),
          embed := some { url := some s } }

/-! ## Component embed derivation (`getEmbedUrl` in PlaylistCreator) -/

/-- `substring(lastIndexOf('-') + 1)`: the token after the last hyphen. -/
def afterLastHyphen (p : Str) : Str := afterLastChar '-' p

/-- The chain of provider branches of `getEmbedUrl` from the YouTube
check onward; every path returns a string. -/
def getEmbedUrlTail (winHost s : Str) (u : UrlObj) : Str :=
  let hostname := toLower u.host
  if containsStr (lit "youtube.com") hostname || containsStr (lit "youtu.be") hostname then
    let videoId :=
      if containsStr (lit "youtu.be") hostname then u.pathname.drop 1
      else (getParam u (lit "v")).getD []
    lit "https://www.youtube.com/embed/" ++ videoId ++ lit "?autoplay=1&enablejsapi=1"
  else if containsStr (lit "vimeo.com") hostname then
    lit "https://player.vimeo.com/video/" ++ lastSeg u.pathname ++ lit "?autoplay=1"
  else if containsStr (lit "instagram.com") hostname then
    s ++ lit "/embed"
  else if containsStr (lit "tiktok.com") hostname then
    lit "https://www.tiktok.com/embed/v2/" ++ s
  else if containsStr (lit "twitch.tv") hostname &&
      containsStr (lit "/videos/") u.pathname then
    lit "https://player.twitch.tv/?video=" ++ lastSeg u.pathname ++
      lit "&parent=" ++ winHost
  else if containsStr (lit "dailymotion.com") hostname &&
      !((dailymotionId u.pathname).getD []).isEmpty then
    lit "https://www.dailymotion.com/embed/video/" ++ (dailymotionId u.pathname).getD []
  else s

/-- Model of the component-level `getEmbedUrl` (identical in the two UI
source variants).  Unlike `resolveVideoUrl` it has no `try`, so a parse
failure (`none`) models the uncaught `TypeError`. -/
def getEmbedUrl (winHost s : Str) : Option Str :=
  match parseUrl (normalizeUrl s) with
  | none => none
  | some u =>
    let pathLow := toLower u.pathname
    if videoExtensions.any (fun e => e.isSuffixOf pathLow) then some s
    else
      match (if containsStr (lit "/videos/") u.pathname then
               (splitOnChar '/' u.pathname).find? (fun part => part.contains '-')
             else none) with
      | some part => some (origin u ++ lit "/embed/" ++ afterLastHyphen part)
      | none =>
        if containsStr (lit "/view_video.php") u.pathname &&
            (getParam u (lit "viewkey")).isSome then
          match getParam u (lit "viewkey") with
          | some vk =>
            if vk.isEmpty then some (getEmbedUrlTail winHost s u)
            else some (origin u ++ lit "/embed/" ++ vk)
          | none => some (getEmbedUrlTail winHost s u)
        else some (getEmbedUrlTail winHost s u)

/-! ## Server resolver (pages/api/resolve.ts) -/

/-- Model of `isHttpUrl`: parseable and protocol http/https (the JS
`protocol` property reports the scheme lowercased). -/
def isHttpUrl (s : Str) : Bool :=
  match parseUrl s with
  | some u => toLower u.scheme == lit "http" || toLower u.scheme == lit "https"
  | none => false

/-- The server's direct-file extension list (note: no `.avi`/`.mkv`). -/
def srvVideoExtensions : List Str :=
  [lit ".mp4", lit ".webm", lit ".ogg", lit ".mov", lit ".m4v"]

/-- The server `isDirectVideoPath(path)` — applied to a path string. -/
def srvIsDirectVideoPath (p : Str) : Bool :=
  srvVideoExtensions.any (fun e => e.isSuffixOf (toLower p))

def buildYouTubeEmbed (i : Str) : Str :=
  lit "https://www.youtube.com/embed/" ++ i ++ lit "?autoplay=1&enablejsapi=1"

def hexDigit (n : Nat) : Char :=
  if n < 10 then Char.ofNat (48 + n) else Char.ofNat (55 + n)

/-- Characters `encodeURIComponent` leaves unescaped. -/
def encUnreserved (c : Char) : Bool :=
  c.isAlphanum || c == '-' || c == '_' || c == '.' || c == '!' || c == '~' ||
  c == '*' || c == Char.ofNat 39 || c == '(' || c == ')'

/-- Model of `encodeURIComponent` on ASCII input. -/
def encodeURIComponent (s : Str) : Str :=
  s.foldr
    (fun c acc =>
      if encUnreserved c then c :: acc
      else '%' :: hexDigit (c.toNat / 16) :: hexDigit (c.toNat % 16) :: acc)
    []

/-- Model of `knownOEmbed`; the handler only reaches it with a parseable
http(s) URL, so the parsed object is passed alongside the raw string. -/
def knownOEmbed (u : UrlObj) (s : Str) : Option Str :=
  let h := toLower u.host
  if containsStr (lit "youtube.com") h || h == lit "youtu.be" then
    some (lit "https://www.youtube.com/oembed?url=" ++ encodeURIComponent s ++
      lit "&format=json")
  else if containsStr (lit "vimeo.com") h then
    some (lit "https://vimeo.com/api/oembed.json?url=" ++ encodeURIComponent s)
  else if containsStr (lit "dailymotion.com") h then
    some (lit "https://www.dailymotion.com/services/oembed?url=" ++ encodeURIComponent s)
  else if containsStr (lit "soundcloud.com") h then
    some (lit "https://soundcloud.com/oembed?format=json&url=" ++ encodeURIComponent s)
  else if containsStr (lit "tiktok.com") h then
    some (lit "https://www.tiktok.com/oembed?url=" ++ encodeURIComponent s)
  else if containsStr (lit "twitter.com") h || containsStr (lit "x.com") h then
    some (lit "https://publish.twitter.com/oembed?url=" ++ encodeURIComponent s)
  else none

/-- An oEmbed JSON payload; every field is optional, as the spec's
"treat missing fields as absent" demands. -/
structure OEmbed where
  title : Option Str := none
  thumbnail_url : Option Str := none
  html : Option Str := none
  provider_name : Option Str := none
  deriving DecidableEq, Repr

/-- A fetched JSON value, as the untyped `data` of `fetchJson` can be:
a JSON object (always truthy in JavaScript), `null` (falsy, and property
access on it throws), or a falsy non-null primitive such as the empty
string, `0` or `false` (property access yields `undefined`). -/
inductive JsonVal where
  | obj (d : OEmbed)
  | nullv
  | prim
  deriving DecidableEq, Repr

/-- JavaScript truthiness of a fetched JSON value, as tested by the
cache-hit check `if (cached)`. -/
def jsTruthyJson : JsonVal → Bool
  | .obj _ => true
  | .nullv => false
  | .prim => false

/-- Simplified model of `cheerio.load(html); $("iframe").attr("src")`:
the `src` attribute of the first iframe tag.  On the empty string and on
iframe-free markup it is `none`, which is all the verified properties
rely on. -/
def extractIframeSrc (h : Str) : Option Str :=
  (afterFirstStr (lit "<iframe") h).bind
    (fun r => (afterFirstStr (lit "src=\"") r).map
      (fun r2 => r2.takeWhile (fun c => c != '"')))

/-- The shape produced by `parseForEmbeds`. -/
structure ParsedPage where
  title : Option Str := none
  description : Option Str := none
  thumbnail : Option Str := none
  embedUrl : Option Str := none
  videos : List Str := []
  deriving DecidableEq, Repr

/-- Simplified model of the `meta()` attribute lookup in
`parseForEmbeds`: a `property="name" content="..."` or
`name="name" content="..."` attribute pair. -/
def metaContent (nm h : Str) : Option Str :=
  match afterFirstStr (lit "property=\"" ++ nm ++ lit "\" content=\"") h with
  | some r => some (r.takeWhile (fun c => c != '"'))
  | none =>
    (afterFirstStr (lit "name=\"" ++ nm ++ lit "\" content=\"") h).map
      (fun r => r.takeWhile (fun c => c != '"'))

/-- The `<title>` text fallback of `parseForEmbeds`. -/
def titleTag (h : Str) : Option Str :=
  (afterFirstStr (lit "<title>") h).map
    (fun r => jsTrim (r.takeWhile (fun c => c != '<')))

/-- Collect `src="..."` values of `<source`/`<video` tags whose value
ends in a recognized server video extension — a simplified model of the
`$("video, video source")` traversal (relative-URL resolution against
the base is not modelled). -/
def collectVideoSrcs : Nat → Str → List Str
  | 0, _ => []
  | _ + 1, [] => []
  | fuel + 1, h =>
    match afterFirstStr (lit "<source") h with
    | none =>
      match afterFirstStr (lit "<video") h with
      | none => []
      | some r =>
        match afterFirstStr (lit "src=\"") r with
        | none => []
        | some r2 =>
          let v := r2.takeWhile (fun c => c != '"')
          if srvIsDirectVideoPath v then v :: collectVideoSrcs fuel r2
          else collectVideoSrcs fuel r2
    | some r =>
      match afterFirstStr (lit "src=\"") r with
      | none => []
      | some r2 =>
        let v := r2.takeWhile (fun c => c != '"')
        if srvIsDirectVideoPath v then v :: collectVideoSrcs fuel r2
        else collectVideoSrcs fuel r2

/-- Simplified model of `parseForEmbeds`: og/twitter meta tags, first
iframe, direct `<video>`/`<source>` targets.  The `||` chains of the
source treat both absent and empty attribute values as misses, hence the
`jsOrNull` at every link. -/
def parseForEmbeds (h : Str) : ParsedPage :=
  let ogVideo :=
    match jsOrNull (metaContent (lit "og:video") h) with
    | some v => some v
    | none => jsOrNull (metaContent (lit "og:video:url") h)
  let embedUrl :=
    match ogVideo with
    | some v => some v
    | none =>
      match jsOrNull (metaContent (lit "twitter:player") h) with
      | some v => some v
      | none => jsOrNull (extractIframeSrc h)
  { title :=
      match jsOrNull (metaContent (lit "og:title") h) with
      | some v => some v
      | none => titleTag h,
    description := jsOrNull (metaContent (lit "og:description") h),
    thumbnail :=
      match jsOrNull (metaContent (lit "og:image") h) with
      | some v => some v
      | none => jsOrNull (metaContent (lit "og:image:url") h),
    embedUrl := embedUrl,
    videos := collectVideoSrcs h.length h }

/-- The argument record of `resultShape`; absent JS object fields are
`none`. -/
structure SIn where
  url : Option Str := none
  provider : Option Str := none
  title : Option Str := none
  description : Option Str := none
  thumbnail : Option Str := none
  embedUrl : Option Str := none
  html : Option Str := none
  allow : Option Str := none
  media : Option (List Str) := none
  deriving DecidableEq, Repr

/-- The `embed` object of the server result shape. -/
structure PEmbed where
  url : Option Str := none
  html : Option Str := none
  allow : Str := []
  deriving DecidableEq, Repr

/-- A successful server result (the `ok:true` envelope). -/
structure PResult where
  url : Option Str := none
  provider : Option Str := none
  title : Option Str := none
  description : Option Str := none
  thumbnail : Option Str := none
  embed : PEmbed := {}
  media : List Str := []
  deriving DecidableEq, Repr

def defaultAllow : Str :=
  lit "accelerometer; autoplay; clipboard-write; encrypted-media; gyroscope; picture-in-picture"

/-- Model of `resultShape`: every data field passes through `|| null`
(empty string and absent both become null), `media` defaults to `[]`,
`allow` to the fixed permission list. -/
def resultShape (i : SIn) : PResult :=
  { url := jsOrNull i.url, provider := jsOrNull i.provider,
    title := jsOrNull i.title, description := jsOrNull i.description,
    thumbnail := jsOrNull i.thumbnail,
    embed := { url := jsOrNull i.embedUrl, html := jsOrNull i.html,
               allow := jsOptD i.allow defaultAllow },
    media := i.media.getD [] }

/-- An HTTP response of the resolve endpoint: either an `ok:true` JSON
body, or an error status whose JSON body carries only `ok:false` and the
error string. -/
inductive Resp where
  | ok (r : PResult)
  | err (code : Nat) (msg : Str)
  deriving DecidableEq, Repr

/-- A network fetch event, for counting underlying fetches. -/
inductive Ev where
  | json (u : Str)
  | html (u : Str)
  deriving DecidableEq, Repr

/-- The LRU cache, modelled as its two key-disjoint partitions (the
source uses one map with `json:`/`html:`-prefixed keys).  Capacity-500
eviction and the 5-minute TTL are not modelled: the verified idempotence
claim is conditioned on staying within the TTL, and the scenarios touch
far fewer than 500 keys. -/
structure St where
  jc : List (Str × JsonVal) := []
  hc : List (Str × Str) := []
  deriving DecidableEq, Repr

def lookupA {α : Type} (l : List (Str × α)) (k : Str) : Option α :=
  (l.find? (fun e => e.1 == k)).map (fun e => e.2)

/-- Model of `fetchJson`: cache lookup with the JS truthiness test
`if (cached) return cached` — a cached falsy payload is NOT served and
is fetched again — then the network environment `envJ` (whose `none`
models a failed/timeout fetch, i.e. a thrown exception); every payload a
fetch returns is cached, falsy ones included.  The trace records every
issued network request. -/
def fetchJson (envJ : Str → Option JsonVal) (st : St) (u : Str) :
    Option JsonVal × St × List Ev :=
  match lookupA st.jc u with
  | some d =>
    if jsTruthyJson d then (some d, st, [])
    else
      match envJ u with
      | some e => (some e, { st with jc := (u, e) :: st.jc }, [Ev.json u])
      | none => (none, st, [Ev.json u])
  | none =>
    match envJ u with
    | some e => (some e, { st with jc := (u, e) :: st.jc }, [Ev.json u])
    | none => (none, st, [Ev.json u])

/-- Model of `fetchHtml`, analogous to `fetchJson`; the truthiness of a
cached HTML string is its nonemptiness, so a cached empty page body is
fetched again. -/
def fetchHtml (envH : Str → Option Str) (st : St) (u : Str) :
    Option Str × St × List Ev :=
  match lookupA st.hc u with
  | some d =>
    if d.isEmpty then
      match envH u with
      | some e => (some e, { st with hc := (u, e) :: st.hc }, [Ev.html u])
      | none => (none, st, [Ev.html u])
    else (some d, st, [])
  | none =>
    match envH u with
    | some e => (some e, { st with hc := (u, e) :: st.hc }, [Ev.html u])
    | none => (none, st, [Ev.html u])

/-- Step 4 of the handler: the HTML-scrape fallback; a failed fetch is
the uncaught exception the outer `catch` turns into a 500. -/
def handlerFallback (envH : Str → Option Str) (st : St) (target : Str)
    (tr0 : List Ev) : Resp × St × List Ev :=
  match fetchHtml envH st target with
  | (none, st1, tr1) => (.err 500 (lit "fetch failed"), st1, tr0 ++ tr1)
  | (some h, st1, tr1) =>
    let parsed := parseForEmbeds h
    if parsed.embedUrl.isNone && parsed.videos.isEmpty then
      (.err 404 (lit "No embeddable media found"), st1, tr0 ++ tr1)
    else
      let i : SIn :=
        { url := some target, provider := some (lit "parsed"),
          title := parsed.title, description := parsed.description,
          thumbnail := parsed.thumbnail, embedUrl := parsed.embedUrl,
          media := some parsed.videos }
      (.ok (resultShape i), st1, tr0 ++ tr1)

/-- The response of the handler's oEmbed branch for a truthy payload.
A falsy non-null primitive payload gives `undefined` on every property
access, i.e. behaves exactly like the empty object. -/
def oembedResp (target : Str) (d : OEmbed) : Resp :=
  .ok (resultShape
    { url := some target,
      provider := some (jsOptD d.provider_name (lit "oembed")),
      title := d.title, thumbnail := d.thumbnail_url,
      embedUrl := extractIframeSrc (jsOptD d.html []),
      html := d.html })

/-- Model of the pages/api/resolve.ts handler.  `envJ`/`envH` are the
network (oEmbed JSON and page HTML); the returned triple is the HTTP
response, the cache state after the call, and the trace of issued
fetches.  A fetched `null` payload throws on the branch's property
accesses and the branch's `catch` falls through to the HTML scrape. -/
def handler (envJ : Str → Option JsonVal) (envH : Str → Option Str) (st : St)
    (q : Str) : Resp × St × List Ev :=
  let target := jsTrim q
  if !isHttpUrl target then
    (.err 400 (lit "Invalid or missing ?url="), st, [])
  else
    match parseUrl target with
    | none => (.err 500 (lit "Invalid URL"), st, [])
    | some u =>
      if srvIsDirectVideoPath u.pathname then
        let i : SIn :=
          { url := some target, provider := some (lit "direct"),
            title := some (lastSeg u.pathname), media := some [target] }
        (.ok (resultShape i), st, [])
      else
        match extractYouTubeId target with
        | some i =>
          let j : SIn :=
            { url := some target, provider := some (lit "youtube"),
              embedUrl := some (buildYouTubeEmbed i),
              title := some (lit "YouTube Video (" ++ i ++ lit ")"),
              thumbnail := some (lit "https://i.ytimg.com/vi/" ++ i ++
                lit "/hqdefault.jpg") }
          (.ok (resultShape j), st, [])
        | none =>
          match knownOEmbed u target with
          | some oe =>
            match fetchJson envJ st oe with
            | (some (JsonVal.obj d), st1, tr1) => (oembedResp target d, st1, tr1)
            | (some JsonVal.prim, st1, tr1) => (oembedResp target {}, st1, tr1)
            | (some JsonVal.nullv, st1, tr1) => handlerFallback envH st1 target tr1
            | (none, st1, tr1) => handlerFallback envH st1 target tr1
          | none => handlerFallback envH st target []

/-- The failing input of the oEmbed-branch success-envelope analysis. -/
def scTarget : Str := lit "https://soundcloud.com/artist/track"

/-- The oEmbed endpoint URL the handler computes for `scTarget`. -/
def scOeUrl : Str :=
  lit "https://soundcloud.com/oembed?format=json&url=https%3A%2F%2Fsoundcloud.com%2Fartist%2Ftrack"

/-- A network in which the SoundCloud oEmbed endpoint answers with an
empty JSON object (no `html`, no `title` — legal per the oEmbed
protocol, e.g. for non-embeddable resource kinds). -/
def scEnvJ : Str → Option JsonVal :=
  fun u => if u == scOeUrl then some (JsonVal.obj {}) else none

/-- A network in which every HTML fetch fails. -/
def noEnvH : Str → Option Str := fun _ => none

/-- A network in which every JSON fetch fails. -/
def noEnvJ : Str → Option JsonVal := fun _ => none

/-- A network in which fetching https://example.org/page succeeds with
an empty HTML body (a perfectly successful 200 response). -/
def emptyPageEnvH : Str → Option Str :=
  fun u => if u == lit "https://example.org/page" then some [] else none

/-! ## Concrete sanity checks -/

example : parseUrl (lit "https://www.YouTube.com/watch?v=abc") =
    some ⟨lit "https", lit "www.youtube.com", [], lit "/watch", lit "v=abc"⟩ := by
  decide

example : parseUrl (lit "not a url") = none := by decide

example : parseUrl (lit "https://not a url") = none := by decide

example : parseUrl (lit "http:foo/bar") =
    some ⟨lit "http", lit "foo", [], lit "/bar", []⟩ := by decide

example : parseUrl (lit "ftp://example.com/clip.mp4") =
    some ⟨lit "ftp", lit "example.com", [], lit "/clip.mp4", []⟩ := by decide

example : getParam ⟨lit "https", lit "h", [], lit "/", lit "a=1&v=xyz"⟩ (lit "v") =
    some (lit "xyz") := by decide

example : resolveVideoUrl (lit "localhost") (lit "https://example.com/movie.mp4") =
    { ok := true, url := some (lit "https://example.com/movie.mp4"),
      provider := some (lit "direct"), title := some (lit "movie.mp4"),
      embed := some { url := some (lit "https://example.com/movie.mp4") },
      media := some [lit "https://example.com/movie.mp4"] } := by decide

example : extractYouTubeId (lit "https://www.youtube.com/watch?v=dQw4w9WgXcQ") =
    some (lit "dQw4w9WgXcQ") := by decide

example : extractYouTubeId (lit "https://youtu.be/dQw4w9WgXcQ") =
    some (lit "dQw4w9WgXcQ") := by decide

example : extractVimeoId (lit "https://vimeo.com/channels/staff/123456") =
    some (lit "123456") := by decide

example : extractVimeoId (lit "https://vimeo.com/about") = none := by decide

example : getEmbedUrl (lit "localhost") (lit "https://example.com/videos/cool-clip-123") =
    some (lit "https://example.com/embed/123") := by decide

example : getEmbedUrl (lit "localhost") (lit "https://example.com/a-b/videos/cool-clip-123") =
    some (lit "https://example.com/embed/b") := by decide

example : getEmbedUrl (lit "localhost") (lit "https://example.com/view_video.php?viewkey=ph999") =
    some (lit "https://example.com/embed/ph999") := by decide

example : getEmbedUrl (lit "localhost") (lit "https://www.youtube.com/feed") =
    some (lit "https://www.youtube.com/embed/?autoplay=1&enablejsapi=1") := by decide

example : resolveVideoUrl (lit "localhost") (lit "example.com/page") =
    { ok := false, error := some (lit "Invalid URL") } := by decide

example : (resolveVideoUrl (lit "localhost") (lit "https://www.twitch.tv/somestreamer")).provider =
    some (lit "unknown") := by decide

example :
    (handler (fun _ => none) (fun _ => none) {} (lit "not a url")).1 =
      .err 400 (lit "Invalid or missing ?url=") := by decide

example :
    (handler (fun _ => none) (fun _ => none) {}
        (lit "https://example.com/a.mp4")).1 =
      .ok { url := some (lit "https://example.com/a.mp4"),
            provider := some (lit "direct"), title := some (lit "a.mp4"),
            embed := { allow := defaultAllow },
            media := [lit "https://example.com/a.mp4"] } := by decide

/-! ## General list lemmas -/

theorem takeWhile_all {p : Char → Bool} {l : Str} (h : ∀ c ∈ l, p c = true) :
    l.takeWhile p = l := by
  induction l with
  | nil => rfl
  | cons a t ih =>
    rw [List.takeWhile_cons, h a (by simp)]
    simp only [if_true]
    rw [ih (fun c hc => h c (by simp [hc]))]

theorem dropWhile_all {p : Char → Bool} {l : Str} (h : ∀ c ∈ l, p c = true) :
    l.dropWhile p = [] := by
  induction l with
  | nil => rfl
  | cons a t ih =>
    rw [List.dropWhile_cons, h a (by simp)]
    simp only [if_true]
    exact ih (fun c hc => h c (by simp [hc]))

theorem takeWhile_append_all {p : Char → Bool} {a : Str} (b : Str)
    (h : ∀ c ∈ a, p c = true) :
    (a ++ b).takeWhile p = a ++ b.takeWhile p := by
  induction a with
  | nil => rfl
  | cons x t ih =>
    rw [List.cons_append, List.takeWhile_cons, h x (by simp)]
    simp only [if_true, List.cons_append]
    rw [ih (fun c hc => h c (by simp [hc]))]

theorem dropWhile_append_all {p : Char → Bool} {a : Str} (b : Str)
    (h : ∀ c ∈ a, p c = true) :
    (a ++ b).dropWhile p = b.dropWhile p := by
  induction a with
  | nil => rfl
  | cons x t ih =>
    rw [List.cons_append, List.dropWhile_cons, h x (by simp)]
    simp only [if_true]
    exact ih (fun c hc => h c (by simp [hc]))

theorem takeWhile_stop {p : Char → Bool} {a : Str} {c : Char} (b : Str)
    (hc : p c = false) (h : ∀ x ∈ a, p x = true) :
    (a ++ c :: b).takeWhile p = a := by
  rw [takeWhile_append_all _ h, List.takeWhile_cons, hc]
  simp

theorem dropWhile_stop {p : Char → Bool} {a : Str} {c : Char} (b : Str)
    (hc : p c = false) (h : ∀ x ∈ a, p x = true) :
    (a ++ c :: b).dropWhile p = c :: b := by
  rw [dropWhile_append_all _ h, List.dropWhile_cons, hc]
  simp

theorem isPrefixOf_cons_cons (c a : Char) (l m : Str) :
    (c :: l).isPrefixOf (a :: m) = (c == a && l.isPrefixOf m) := rfl

theorem isPrefixOf_append_self (a b : Str) : a.isPrefixOf (a ++ b) = true := by
  induction a with
  | nil => simp
  | cons c t ih =>
    rw [List.cons_append, isPrefixOf_cons_cons, ih]
    simp

theorem isPrefixOf_append_of_le {l r : Str} (t : Str) (h : l.length ≤ r.length) :
    l.isPrefixOf (r ++ t) = l.isPrefixOf r := by
  induction l generalizing r with
  | nil => simp
  | cons c l2 ih =>
    cases r with
    | nil => simp at h
    | cons a r2 =>
      rw [List.cons_append, isPrefixOf_cons_cons, isPrefixOf_cons_cons,
        ih (by simpa using h)]

theorem mem_of_isPrefixOf {l m : Str} (h : l.isPrefixOf m = true) {c : Char}
    (hc : c ∈ l) : c ∈ m :=
  (List.isPrefixOf_iff_prefix.mp h).subset hc

theorem getLastD_mem {l : Str} (h : l ≠ []) (d : Char) : l.getLastD d ∈ l := by
  induction l generalizing d with
  | nil => simp at h
  | cons a t ih =>
    rw [List.getLastD_cons]
    cases t with
    | nil => simp
    | cons b t2 => exact List.mem_cons_of_mem a (ih (by simp) a)

theorem isPrefixOf_overflow {l r v : Str} (d : Char)
    (h : l.isPrefixOf (r ++ v) = true) (hlen : r.length < l.length) :
    l.getLastD d ∈ v := by
  induction r generalizing l d with
  | nil =>
    have hne : l ≠ [] := by
      cases l with
      | nil => simp at hlen
      | cons a t => simp
    exact mem_of_isPrefixOf (by simpa using h) (getLastD_mem hne d)
  | cons a r2 ih =>
    cases l with
    | nil => simp at hlen
    | cons b l2 =>
      rw [List.cons_append, isPrefixOf_cons_cons, Bool.and_eq_true] at h
      rw [List.getLastD_cons]
      exact ih b h.2 (by simpa using hlen)

/-! ## Regex-scan lemmas for `findLit` -/

theorem matchAt_append_hit {l v : Str} {p : Char → Bool}
    (h : ∀ c ∈ v, p c = true) (hne : v ≠ []) :
    matchAt l p (l ++ v) = some v := by
  unfold matchAt
  rw [isPrefixOf_append_self]
  simp only [if_true]
  rw [List.drop_left, takeWhile_all h]
  simp [hne]

theorem findLit_all_none {l v : Str} {p : Char → Bool} (hl : l ≠ [])
    (hlast : p (l.getLastD ' ') = false) (h : ∀ c ∈ v, p c = true) :
    findLit l p v = none := by
  induction v with
  | nil => rfl
  | cons a t ih =>
    have hm : matchAt l p (a :: t) = none := by
      unfold matchAt
      have : l.isPrefixOf (a :: t) = false := by
        by_contra hx
        have hx2 : l.isPrefixOf (a :: t) = true := by
          cases hb : l.isPrefixOf (a :: t) with
          | true => rfl
          | false => exact absurd hb hx
        have := mem_of_isPrefixOf hx2 (getLastD_mem hl ' ')
        rw [h _ this] at hlast
        exact Bool.true_eq_false.mp hlast
      rw [this]
      simp
    rw [findLit, hm]
    exact ih (fun c hc => h c (by simp [hc]))

theorem findLit_append_none {l r v : Str} {p : Char → Bool} (hl : l ≠ [])
    (hlast : p (l.getLastD ' ') = false) (hv : ∀ c ∈ v, p c = true)
    (hscan : scanMissOk l r = true) :
    findLit l p (r ++ v) = none := by
  induction r with
  | nil => simpa using findLit_all_none hl hlast hv
  | cons a r2 ih =>
    rw [scanMissOk, Bool.and_eq_true] at hscan
    have hm : matchAt l p ((a :: r2) ++ v) = none := by
      unfold matchAt
      have hpre : l.isPrefixOf ((a :: r2) ++ v) = false := by
        by_cases hlen : l.length ≤ r2.length + 1
        · rw [isPrefixOf_append_of_le _ (by simpa using hlen)]
          have := hscan.1
          rw [if_pos hlen] at this
          simpa using this
        · by_contra hx
          have hx2 : l.isPrefixOf ((a :: r2) ++ v) = true := by
            cases hb : l.isPrefixOf ((a :: r2) ++ v) with
            | true => rfl
            | false => exact absurd hb hx
          have hmem := isPrefixOf_overflow ' ' hx2
            (by simp; omega)
          rw [hv _ hmem] at hlast
          exact Bool.true_eq_false.mp hlast
      rw [hpre]
      simp
    rw [List.cons_append, findLit]
    rw [show a :: (r2 ++ v) = (a :: r2) ++ v from rfl, hm]
    exact ih hscan.2

theorem findLit_append_hit {l r v : Str} {p : Char → Bool} (hl : l ≠ [])
    (hv : ∀ c ∈ v, p c = true) (hvne : v ≠ [])
    (hscan : noEarlyHit l r = true) :
    findLit l p (r ++ (l ++ v)) = some v := by
  induction r with
  | nil =>
    simp only [List.nil_append]
    cases hc : l ++ v with
    | nil =>
      exact absurd (List.append_eq_nil.mp hc).2 hvne
    | cons x t =>
      rw [findLit, ← hc, matchAt_append_hit hv hvne]
  | cons a r2 ih =>
    rw [noEarlyHit, Bool.and_eq_true] at hscan
    have hm : matchAt l p ((a :: r2) ++ (l ++ v)) = none := by
      unfold matchAt
      have hpre : l.isPrefixOf ((a :: r2) ++ (l ++ v)) = false := by
        rw [show (a :: r2) ++ (l ++ v) = ((a :: r2) ++ l) ++ v from by simp,
          isPrefixOf_append_of_le _
            (by simp only [List.length_append, List.length_cons]; omega)]
        simpa using hscan.1
      rw [hpre]
      simp
    rw [List.cons_append, findLit]
    rw [show a :: (r2 ++ (l ++ v)) = (a :: r2) ++ (l ++ v) from rfl, hm]
    exact ih hscan.2

/-! ## Character-class lemmas -/

theorem char_toNat_ofNat {n : Nat} (h : n.isValidChar) : (Char.ofNat n).toNat = n := by
  rw [Char.ofNat, dif_pos h]
  rfl

theorem ytChar_ne {c x : Char} (h : ytChar c = true) (hx : ytChar x = false) :
    (c != x) = true := by
  rw [bne_iff_ne]
  intro he
  rw [he, hx] at h
  exact Bool.false_ne_true h

theorem beq_false_of_ytChar {c x : Char} (h : ytChar c = true)
    (hx : ytChar x = false) : (c == x) = false := by
  have := ytChar_ne h hx
  simpa [bne] using this

theorem toLower_ne_dot {c : Char} (h : ytChar c = true) :
    Char.toLower c ≠ '.' := by
  intro he
  rw [Char.toLower] at he
  by_cases hc : c.toNat ≥ 65 ∧ c.toNat ≤ 90
  · rw [if_pos hc] at he
    have h2 := congrArg Char.toNat he
    rw [char_toNat_ofNat (Or.inl (by omega))] at h2
    have : ('.').toNat = 46 := by decide
    omega
  · rw [if_neg hc] at he
    rw [he] at h
    exact absurd h (by decide)

theorem dot_not_mem_map_toLower {v : Str} (h : ∀ c ∈ v, ytChar c = true) :
    '.' ∉ v.map Char.toLower := by
  intro hm
  rcases List.mem_map.mp hm with ⟨c, hc, he⟩
  exact toLower_ne_dot (h c hc) he

theorem ext_any_false {s : Str} (hdot : '.' ∉ s) :
    videoExtensions.any (fun e => e.isSuffixOf s) = false := by
  by_contra hx
  have hx2 : videoExtensions.any (fun e => e.isSuffixOf s) = true := by
    cases hb : videoExtensions.any (fun e => e.isSuffixOf s) with
    | true => rfl
    | false => exact absurd hb hx
  rcases List.any_eq_true.mp hx2 with ⟨e, he, hs⟩
  have hsuf : e <:+ s := List.isSuffixOf_iff_suffix.mp hs
  have hdm : ('.' : Char) ∈ e := by
    fin_cases he <;> decide
  exact hdot (hsuf.subset hdm)

/-! ## Symbolic evaluation of the YouTube ID extraction -/

theorem ytChar_imp {v : Str} (hv : ∀ c ∈ v, ytChar c = true) {x : Char}
    (hx : ytChar x = false) : ∀ c ∈ v, (c != x) = true :=
  fun c hc => ytChar_ne (hv c hc) hx

theorem findLit_watch {v : Str} (hv : ∀ c ∈ v, ytChar c = true) (hne : v ≠ []) :
    findLit (lit "youtube.com/watch?v=") ytChar
      (lit "https://www.youtube.com/watch?v=" ++ v) = some v :=
  findLit_append_hit (r := lit "https://www.") (by decide) hv hne (by decide)

theorem findLit_be {v : Str} (hv : ∀ c ∈ v, ytChar c = true) (hne : v ≠ []) :
    findLit (lit "youtu.be/") ytChar (lit "https://youtu.be/" ++ v) = some v :=
  findLit_append_hit (r := lit "https://") (by decide) hv hne (by decide)

theorem findLit_shorts {v : Str} (hv : ∀ c ∈ v, ytChar c = true) (hne : v ≠ []) :
    findLit (lit "youtube.com/shorts/") ytChar
      (lit "https://www.youtube.com/shorts/" ++ v) = some v :=
  findLit_append_hit (r := lit "https://www.") (by decide) hv hne (by decide)

theorem extract_watch {v : Str} (hv : ∀ c ∈ v, ytChar c = true) (hne : v ≠ []) :
    extractYouTubeId (lit "https://www.youtube.com/watch?v=" ++ v) = some v := by
  unfold extractYouTubeId
  rw [findLit_watch hv hne]

theorem extract_be {v : Str} (hv : ∀ c ∈ v, ytChar c = true) (hne : v ≠ []) :
    extractYouTubeId (lit "https://youtu.be/" ++ v) = some v := by
  unfold extractYouTubeId
  rw [findLit_append_none (r := lit "https://youtu.be/") (by decide) (by decide) hv
    (by decide)]
  rw [findLit_be hv hne]

theorem extract_shorts {v : Str} (hv : ∀ c ∈ v, ytChar c = true) (hne : v ≠ []) :
    extractYouTubeId (lit "https://www.youtube.com/shorts/" ++ v) = some v := by
  unfold extractYouTubeId
  rw [findLit_append_none (r := lit "https://www.youtube.com/shorts/") (by decide)
    (by decide) hv (by decide)]
  rw [findLit_append_none (l := lit "youtu.be/")
    (r := lit "https://www.youtube.com/shorts/") (by decide) (by decide) hv (by decide)]
  rw [findLit_shorts hv hne]

/-! ## Symbolic evaluation of the URL parser on the YouTube URL forms -/

theorem pq_of_ytChar {c : Char} (h : ytChar c = true) : pqChar c = true := by
  unfold pqChar
  rw [beq_false_of_ytChar h (by decide), beq_false_of_ytChar h (by decide)]
  rfl

theorem parse_watch {v : Str} (hv : ∀ c ∈ v, ytChar c = true) :
    parseUrl (lit "https://www.youtube.com/watch?v=" ++ v) =
      some ⟨lit "https", lit "www.youtube.com", [], lit "/watch", lit "v=" ++ v⟩ := by
  have hA : afterScheme (lit "https://www.youtube.com/watch?v=" ++ v) =
      ':' :: (lit "//www.youtube.com/watch?v=" ++ v) :=
    dropWhile_stop (a := lit "https") _ (by decide) (by decide)
  have hB : schemeOf (lit "https://www.youtube.com/watch?v=" ++ v) = lit "https" :=
    takeWhile_stop (a := lit "https") _ (by decide) (by decide)
  rw [parseUrl, hA, hB]
  rw [show validScheme (lit "https") = true from by decide]
  simp only [if_true]
  rw [parseTail]
  rw [show (toLower (lit "https") == lit "http" || toLower (lit "https") == lit "https") =
    true from by decide]
  simp only [if_true]
  rw [parseSpecial]
  rw [show (lit "//www.youtube.com/watch?v=" ++ v).dropWhile (fun c => c == '/') =
      'w' :: (lit "ww.youtube.com/watch?v=" ++ v) from
    dropWhile_stop (a := lit "//") _ (by decide) (by decide)]
  rw [show ('w' :: (lit "ww.youtube.com/watch?v=" ++ v)).takeWhile autChar =
      lit "www.youtube.com" from
    takeWhile_stop (a := lit "www.youtube.com") _ (by decide) (by decide)]
  rw [show parseAuthority true (lit "www.youtube.com") =
    some (lit "www.youtube.com", []) from by decide]
  rw [show ('w' :: (lit "ww.youtube.com/watch?v=" ++ v)).dropWhile autChar =
      '/' :: (lit "watch?v=" ++ v) from
    dropWhile_stop (a := lit "www.youtube.com") _ (by decide) (by decide)]
  simp only [mkUrl]
  rw [show ('/' :: (lit "watch?v=" ++ v)).takeWhile pqChar = lit "/watch" from
    takeWhile_stop (a := lit "/watch") _ (by decide) (by decide)]
  rw [show ('/' :: (lit "watch?v=" ++ v)).dropWhile pqChar = '?' :: (lit "v=" ++ v) from
    dropWhile_stop (a := lit "/watch") _ (by decide) (by decide)]
  rw [queryOf]
  rw [takeWhile_append_all _ (by decide),
    takeWhile_all (ytChar_imp hv (by decide))]
  simp
  intro h
  exact absurd h (by decide)

theorem parse_be {v : Str} (hv : ∀ c ∈ v, ytChar c = true) :
    parseUrl (lit "https://youtu.be/" ++ v) =
      some ⟨lit "https", lit "youtu.be", [], '/' :: v, []⟩ := by
  have hA : afterScheme (lit "https://youtu.be/" ++ v) =
      ':' :: (lit "//youtu.be/" ++ v) :=
    dropWhile_stop (a := lit "https") _ (by decide) (by decide)
  have hB : schemeOf (lit "https://youtu.be/" ++ v) = lit "https" :=
    takeWhile_stop (a := lit "https") _ (by decide) (by decide)
  rw [parseUrl, hA, hB]
  rw [show validScheme (lit "https") = true from by decide]
  simp only [if_true]
  rw [parseTail]
  rw [show (toLower (lit "https") == lit "http" || toLower (lit "https") == lit "https") =
    true from by decide]
  simp only [if_true]
  rw [parseSpecial]
  rw [show (lit "//youtu.be/" ++ v).dropWhile (fun c => c == '/') =
      'y' :: (lit "outu.be/" ++ v) from
    dropWhile_stop (a := lit "//") _ (by decide) (by decide)]
  rw [show ('y' :: (lit "outu.be/" ++ v)).takeWhile autChar = lit "youtu.be" from
    takeWhile_stop (a := lit "youtu.be") _ (by decide) (by decide)]
  rw [show parseAuthority true (lit "youtu.be") = some (lit "youtu.be", []) from by decide]
  rw [show ('y' :: (lit "outu.be/" ++ v)).dropWhile autChar = '/' :: v from
    dropWhile_stop (a := lit "youtu.be") _ (by decide) (by decide)]
  simp only [mkUrl]
  have hP : ('/' :: v).takeWhile pqChar = '/' :: v := by
    rw [List.takeWhile_cons, show pqChar '/' = true from by decide]
    simp only [if_true]
    rw [takeWhile_all (fun c hc => pq_of_ytChar (hv c hc))]
  have hQ : ('/' :: v).dropWhile pqChar = [] := by
    rw [List.dropWhile_cons, show pqChar '/' = true from by decide]
    simp only [if_true]
    exact dropWhile_all (fun c hc => pq_of_ytChar (hv c hc))
  rw [hP, hQ]
  simp [queryOf]

theorem parse_shorts {v : Str} (hv : ∀ c ∈ v, ytChar c = true) :
    parseUrl (lit "https://www.youtube.com/shorts/" ++ v) =
      some ⟨lit "https", lit "www.youtube.com", [], lit "/shorts/" ++ v, []⟩ := by
  have hA : afterScheme (lit "https://www.youtube.com/shorts/" ++ v) =
      ':' :: (lit "//www.youtube.com/shorts/" ++ v) :=
    dropWhile_stop (a := lit "https") _ (by decide) (by decide)
  have hB : schemeOf (lit "https://www.youtube.com/shorts/" ++ v) = lit "https" :=
    takeWhile_stop (a := lit "https") _ (by decide) (by decide)
  rw [parseUrl, hA, hB]
  rw [show validScheme (lit "https") = true from by decide]
  simp only [if_true]
  rw [parseTail]
  rw [show (toLower (lit "https") == lit "http" || toLower (lit "https") == lit "https") =
    true from by decide]
  simp only [if_true]
  rw [parseSpecial]
  rw [show (lit "//www.youtube.com/shorts/" ++ v).dropWhile (fun c => c == '/') =
      'w' :: (lit "ww.youtube.com/shorts/" ++ v) from
    dropWhile_stop (a := lit "//") _ (by decide) (by decide)]
  rw [show ('w' :: (lit "ww.youtube.com/shorts/" ++ v)).takeWhile autChar =
      lit "www.youtube.com" from
    takeWhile_stop (a := lit "www.youtube.com") _ (by decide) (by decide)]
  rw [show parseAuthority true (lit "www.youtube.com") =
    some (lit "www.youtube.com", []) from by decide]
  rw [show ('w' :: (lit "ww.youtube.com/shorts/" ++ v)).dropWhile autChar =
      '/' :: (lit "shorts/" ++ v) from
    dropWhile_stop (a := lit "www.youtube.com") _ (by decide) (by decide)]
  simp only [mkUrl]
  have hP : ('/' :: (lit "shorts/" ++ v)).takeWhile pqChar = lit "/shorts/" ++ v := by
    have := takeWhile_append_all (a := lit "/shorts/") (p := pqChar) v (by decide)
    rw [takeWhile_all (fun c hc => pq_of_ytChar (hv c hc))] at this
    exact this
  have hQ : ('/' :: (lit "shorts/" ++ v)).dropWhile pqChar = [] := by
    have := dropWhile_append_all (a := lit "/shorts/") (p := pqChar) v (by decide)
    rw [dropWhile_all (fun c hc => pq_of_ytChar (hv c hc))] at this
    exact this
  rw [hP, hQ]
  simp [queryOf]
  intro h
  exact absurd h (by decide)

/-! ## Branch-evaluation lemmas for the client resolver -/

theorem normalizeUrl_http {s : Str} (h0 : (lit "http").isPrefixOf s = true) :
    normalizeUrl s = s := by
  rw [normalizeUrl, h0]
  simp

theorem resolve_direct {w s : Str} {u : UrlObj}
    (h0 : (lit "http").isPrefixOf s = true)
    (h1 : parseUrl s = some u)
    (h2 : videoExtensions.any (fun e => e.isSuffixOf (toLower u.pathname)) = true) :
    resolveVideoUrl w s =
      { ok := true, url := some s, provider := some (lit "direct"),
        title := some (jsOrD (lastSeg u.pathname) (lit "Direct Video")),
        embed := some { url := some s }, media := some [s] } := by
  rw [resolveVideoUrl, normalizeUrl_http h0, h1]
  rw [isDirectVideoPathQ, h1]
  simp only [Option.map_some', h2]

theorem resolve_yt {w s i : Str} {u : UrlObj}
    (h0 : (lit "http").isPrefixOf s = true)
    (h1 : parseUrl s = some u)
    (h2 : videoExtensions.any (fun e => e.isSuffixOf (toLower u.pathname)) = false)
    (h3 : extractYouTubeId s = some i) :
    resolveVideoUrl w s =
      { ok := true, url := some s, provider := some (lit "youtube"),
        title := some (lit "YouTube Video"),
        thumbnail := some (lit "https://i.ytimg.com/vi/" ++ i ++ lit "/hqdefault.jpg"),
        embed := some { url := some (lit "https://www.youtube.com/embed/" ++ i ++
          lit "?autoplay=1&enablejsapi=1") } } := by
  rw [resolveVideoUrl, normalizeUrl_http h0, h1]
  rw [isDirectVideoPathQ, h1]
  simp only [Option.map_some', h2, h3]

theorem ext_any_slash_map {v : Str} (hv : ∀ c ∈ v, ytChar c = true) :
    videoExtensions.any (fun e => e.isSuffixOf (toLower ('/' :: v))) = false := by
  apply ext_any_false
  intro hm
  rw [show toLower ('/' :: v) = '/' :: v.map Char.toLower from rfl] at hm
  rcases List.mem_cons.mp hm with h | h
  · exact absurd h (by decide)
  · exact dot_not_mem_map_toLower hv h

theorem ext_any_shorts {v : Str} (hv : ∀ c ∈ v, ytChar c = true) :
    videoExtensions.any (fun e => e.isSuffixOf (toLower (lit "/shorts/" ++ v))) =
      false := by
  apply ext_any_false
  intro hm
  have he : toLower (lit "/shorts/" ++ v) = lit "/shorts/" ++ v.map Char.toLower := by
    simp only [toLower, List.map_append]
    rfl
  rw [he] at hm
  rcases List.mem_append.mp hm with h | h
  · exact absurd h (by decide)
  · exact dot_not_mem_map_toLower hv h

theorem http_prefix_of_append {a : Str} (v : Str)
    (h : (lit "http").isPrefixOf a = true) (hl : 4 ≤ a.length) :
    (lit "http").isPrefixOf (a ++ v) = true := by
  rw [isPrefixOf_append_of_le _ (by simpa using hl)]
  exact h

/-! ## Claim theorems -/

/-- C1 (amended): for every input URL that starts with the four literal
characters 'http' and whose path ends in one of the recognized video
extensions (.mp4, .webm, .ogg, .mov, .avi, .mkv, .m4v,
case-insensitive), resolve returns ok:true, provider "direct", embed.url
equal to the input URL, and a media list containing exactly the input
URL, and performs no network call.  (The client `resolveVideoUrl` is a
pure function — it contains no fetch — so its embedding performs no
network effect by construction.)  The 'http' restriction is forced: the
direct-file check `isDirectVideoPath(url)` re-parses the RAW input, not
the normalized one, so a scheme-less direct-file URL such as
example.com/movie.mp4 makes `new URL(url)` throw and the catch returns
ok:false instead — see the counterexample. -/
theorem c1_direct_file (w s : Str) (u : UrlObj)
    (h0 : (lit "http").isPrefixOf s = true)
    (h1 : parseUrl s = some u)
    (h2 : videoExtensions.any (fun e => e.isSuffixOf (toLower u.pathname)) = true) :
    (resolveVideoUrl w s).ok = true ∧
    (resolveVideoUrl w s).provider = some (lit "direct") ∧
    (resolveVideoUrl w s).embed = some { url := some s, html := none } ∧
    (resolveVideoUrl w s).media = some [s] := by
  rw [resolve_direct h0 h1 h2]
  exact ⟨rfl, rfl, rfl, rfl⟩

/-- Witness for C1 at the concrete input https://example.com/movie.mp4. -/
theorem c1_direct_file_witness :
    (resolveVideoUrl (lit "localhost") (lit "https://example.com/movie.mp4")).ok =
      true ∧
    (resolveVideoUrl (lit "localhost") (lit "https://example.com/movie.mp4")).provider =
      some (lit "direct") ∧
    (resolveVideoUrl (lit "localhost") (lit "https://example.com/movie.mp4")).embed =
      some { url := some (lit "https://example.com/movie.mp4"), html := none } ∧
    (resolveVideoUrl (lit "localhost") (lit "https://example.com/movie.mp4")).media =
      some [lit "https://example.com/movie.mp4"] :=
  c1_direct_file (lit "localhost") (lit "https://example.com/movie.mp4")
    ⟨lit "https", lit "example.com", [], lit "/movie.mp4", []⟩
    (by decide) (by decide) (by decide)

/-- C1 counterexample: example.com/movie.mp4 is an input URL whose path
ends in .mp4 (after the https:// normalization it parses with pathname
/movie.mp4), yet resolveVideoUrl returns ok:false with error "Invalid
URL": the direct-file check re-parses the raw scheme-less input, which
throws, and the catch converts it into a failure envelope. -/
theorem c1_direct_file_cex :
    parseUrl (normalizeUrl (lit "example.com/movie.mp4")) =
      some ⟨lit "https", lit "example.com", [], lit "/movie.mp4", []⟩ ∧
    videoExtensions.any
      (fun e => e.isSuffixOf (toLower (lit "/movie.mp4"))) = true ∧
    resolveVideoUrl (lit "localhost") (lit "example.com/movie.mp4") =
      { ok := false, error := some (lit "Invalid URL") } := by
  decide

/-- C2: for every YouTube video ID (a nonempty string over the pattern
class `[a-zA-Z0-9_-]`), the three input URL forms `youtube.com/watch?v=ID`,
`youtu.be/ID` and `youtube.com/shorts/ID` all resolve to the same
provider "youtube" and the identical canonical embed URL
`https://www.youtube.com/embed/ID?autoplay=1&enablejsapi=1`. -/
theorem c2_youtube_forms (w v : Str) (hne : v ≠ [])
    (hv : ∀ c ∈ v, ytChar c = true) :
    ∀ s ∈ [lit "https://www.youtube.com/watch?v=" ++ v,
           lit "https://youtu.be/" ++ v,
           lit "https://www.youtube.com/shorts/" ++ v],
      (resolveVideoUrl w s).provider = some (lit "youtube") ∧
      (resolveVideoUrl w s).embed =
        some { url := some (lit "https://www.youtube.com/embed/" ++ v ++
                 lit "?autoplay=1&enablejsapi=1"), html := none } := by
  intro s hs
  rcases List.mem_cons.mp hs with h | hs
  · subst h
    rw [resolve_yt (http_prefix_of_append v (by decide) (by decide)) (parse_watch hv)
      (show videoExtensions.any
          (fun e => e.isSuffixOf (toLower (lit "/watch"))) = false from by decide)
      (extract_watch hv hne)]
    exact ⟨rfl, rfl⟩
  rcases List.mem_cons.mp hs with h | hs
  · subst h
    rw [resolve_yt (http_prefix_of_append v (by decide) (by decide)) (parse_be hv)
      (ext_any_slash_map hv) (extract_be hv hne)]
    exact ⟨rfl, rfl⟩
  rcases List.mem_cons.mp hs with h | hs
  · subst h
    rw [resolve_yt (http_prefix_of_append v (by decide) (by decide)) (parse_shorts hv)
      (ext_any_shorts hv) (extract_shorts hv hne)]
    exact ⟨rfl, rfl⟩
  · exact absurd hs (List.not_mem_nil s)

/-- Witness for C2 at the concrete ID dQw4w9WgXcQ (the youtu.be form). -/
theorem c2_youtube_forms_witness :
    (resolveVideoUrl (lit "localhost")
        (lit "https://youtu.be/" ++ lit "dQw4w9WgXcQ")).provider =
      some (lit "youtube") ∧
    (resolveVideoUrl (lit "localhost")
        (lit "https://youtu.be/" ++ lit "dQw4w9WgXcQ")).embed =
      some { url := some (lit "https://www.youtube.com/embed/" ++ lit "dQw4w9WgXcQ" ++
               lit "?autoplay=1&enablejsapi=1"), html := none } :=
  c2_youtube_forms (lit "localhost") (lit "dQw4w9WgXcQ") (by decide) (by decide)
    (lit "https://youtu.be/" ++ lit "dQw4w9WgXcQ") (by simp)

/-! ## C3 / C4: the server envelope -/

/-- C3: the spec requires every ok:true result to carry a playable
target (embed.url, embed.html, or nonempty media).  The handler's oEmbed
branch violates this: when the oEmbed endpoint returns a JSON object
without an `html` field, the handler still answers with an ok:true
envelope whose embed.url and embed.html are null and whose media list is
empty. -/
theorem c3_oembed_empty_success :
    (handler scEnvJ noEnvH {} scTarget).1 =
      Resp.ok { url := some scTarget, provider := some (lit "oembed"),
                title := none, description := none, thumbnail := none,
                embed := { url := none, html := none, allow := defaultAllow },
                media := [] } := by
  decide

/-- C4: for every input string that is not a parseable http(s) URL
(after the handler's trim normalization), the server resolve endpoint
answers ok:false with an error string, and the envelope carries no other
field; the cache is untouched and no fetch is issued. -/
theorem c4_invalid_url (envJ : Str → Option JsonVal) (envH : Str → Option Str)
    (st : St) (q : Str) (h : isHttpUrl (jsTrim q) = false) :
    handler envJ envH st q = (.err 400 (lit "Invalid or missing ?url="), st, []) := by
  rw [handler]
  simp [h]

/-- Witness for C4 at the concrete input "not a url". -/
theorem c4_invalid_url_witness :
    handler scEnvJ noEnvH {} (lit "not a url") =
      (.err 400 (lit "Invalid or missing ?url="), {}, []) :=
  c4_invalid_url scEnvJ noEnvH {} (lit "not a url") (by decide)

/-! ## C8: normalization versus schemes -/

theorem parseTail_scheme {c r : Str} {u : UrlObj} (h : parseTail c r = some u) :
    u.scheme = c := by
  rw [parseTail] at h
  split at h
  · rw [parseSpecial] at h
    split at h
    · simp at h
    · rw [Option.some.injEq] at h
      exact (congrArg UrlObj.scheme h).symm
  · unfold parseOther at h
    split at h <;>
      first
        | (rw [Option.some.injEq] at h
           exact (congrArg UrlObj.scheme h).symm)
        | simp at h
        | (split at h <;>
            first
              | (rw [Option.some.injEq] at h
                 exact (congrArg UrlObj.scheme h).symm)
              | simp at h)

theorem parseUrl_scheme {s : Str} {u : UrlObj} (h : parseUrl s = some u) :
    u.scheme = schemeOf s := by
  rw [parseUrl] at h
  split at h
  · exact absurd h (by simp)
  · split at h
    · exact parseTail_scheme h
    · exact absurd h (by simp)

/-- C8 (amended): normalization leaves every parseable URL whose scheme
is literally `http` or `https` unchanged; but it keys on the four
literal characters "http", not on the presence of a scheme, so a URL
with another scheme is prefixed even though it already has one (see the
counterexample). -/
theorem c8_normalizeUrl_http_scheme (s : Str) (u : UrlObj)
    (h : parseUrl s = some u)
    (hs : u.scheme = lit "http" ∨ u.scheme = lit "https") :
    normalizeUrl s = s := by
  apply normalizeUrl_http
  have hsplit : schemeOf s ++ afterScheme s = s :=
    List.takeWhile_append_dropWhile _ _
  have hsch := parseUrl_scheme h
  rcases hs with h2 | h2
  · rw [← hsplit, ← hsch, h2]
    exact isPrefixOf_append_self _ _
  · rw [← hsplit, ← hsch, h2]
    rw [isPrefixOf_append_of_le _ (by decide)]
    decide

/-- Witness for the amended C8 at https://example.com. -/
theorem c8_normalizeUrl_http_scheme_witness :
    normalizeUrl (lit "https://example.com") = lit "https://example.com" :=
  c8_normalizeUrl_http_scheme (lit "https://example.com")
    ⟨lit "https", lit "example.com", [], lit "/", []⟩ (by decide) (Or.inr (by decide))

/-- C8 counterexample: `ftp://example.com/clip.mp4` has a scheme (it
parses, with scheme "ftp"), yet normalization mutates it by prefixing
`https://` — the claim that normalization never mutates an input that
already has a scheme is false on the code. -/
theorem c8_normalizeUrl_cex :
    (parseUrl (lit "ftp://example.com/clip.mp4")).map UrlObj.scheme =
      some (lit "ftp") ∧
    normalizeUrl (lit "ftp://example.com/clip.mp4") ≠
      lit "ftp://example.com/clip.mp4" := by
  exact ⟨by decide, by decide⟩

/-! ## C9: the unknown-provider fallback -/

/-- C9 counterexample: `example.com/page` parses after normalization and
matches no provider rule, yet the client resolver returns ok:false — its
direct-file check re-parses the raw, scheme-less input with `new URL`,
which throws and is caught as a failure.  The claimed unconditional
unknown-provider fallback is therefore false. -/
theorem c9_unknown_fallback_cex :
    (parseUrl (normalizeUrl (lit "example.com/page"))).isSome = true ∧
    extractYouTubeId (lit "example.com/page") = none ∧
    extractVimeoId (lit "example.com/page") = none ∧
    containsStr (lit "instagram.com") (lit "example.com") = false ∧
    containsStr (lit "tiktok.com") (lit "example.com") = false ∧
    containsStr (lit "twitch.tv") (lit "example.com") = false ∧
    containsStr (lit "dailymotion.com") (lit "example.com") = false ∧
    (resolveVideoUrl (lit "localhost") (lit "example.com/page")).ok = false := by
  decide

/-- C9 (amended): for every input that starts with "http", parses, and
matches no provider rule, the client resolver returns the ok:true
unknown-provider fallback whose embed.url is the input itself, with no
network request (the function is pure). -/
theorem c9_unknown_fallback (w s : Str) (u : UrlObj)
    (h0 : (lit "http").isPrefixOf s = true)
    (h1 : parseUrl s = some u)
    (h2 : videoExtensions.any (fun e => e.isSuffixOf (toLower u.pathname)) = false)
    (h3 : extractYouTubeId s = none)
    (h4 : extractVimeoId s = none)
    (h5 : containsStr (lit "instagram.com") (toLower u.host) = false)
    (h6 : containsStr (lit "tiktok.com") (toLower u.host) = false)
    (h7 : containsStr (lit "twitch.tv") (toLower u.host) = false)
    (h8 : containsStr (lit "dailymotion.com") (toLower u.host) = false) :
    resolveVideoUrl w s =
      { ok := true, url := some s, provider := some (lit "unknown"),
        title := some (lit "Video from " ++ toLower u.host),
        embed := some { url := some s } } := by
  rw [resolveVideoUrl, normalizeUrl_http h0, h1, isDirectVideoPathQ, h1]
  simp only [Option.map_some', h2, h3, h4, h5, h6, h7, h8, Bool.false_and,
    Bool.and_false, if_false]
  simp

/-- Witness for the amended C9 at https://example.org/page. -/
theorem c9_unknown_fallback_witness :
    resolveVideoUrl (lit "localhost") (lit "https://example.org/page") =
      { ok := true, url := some (lit "https://example.org/page"),
        provider := some (lit "unknown"),
        title := some (lit "Video from " ++ toLower (lit "example.org")),
        embed := some { url := some (lit "https://example.org/page") } } :=
  c9_unknown_fallback (lit "localhost") (lit "https://example.org/page")
    ⟨lit "https", lit "example.org", [], lit "/page", []⟩
    (by decide) (by decide) (by decide) (by decide) (by decide) (by decide)
    (by decide) (by decide) (by decide)

/-! ## C7: fallthrough on hostname match without an extractable ID -/

/-- C7 counterexample: `https://www.youtube.com/feed` is
hostname-matched (youtube.com) and has no extractable video ID (no `v`
parameter, no `youtu.be` or `shorts` segment), but the component
`getEmbedUrl` does not fall through to the next rule — it returns a
malformed provider-specific embed URL with an empty ID instead of the
default (the input itself). -/
theorem c7_fallthrough_cex :
    containsStr (lit "youtube.com") (toLower (lit "www.youtube.com")) = true ∧
    extractYouTubeId (lit "https://www.youtube.com/feed") = none ∧
    getEmbedUrl (lit "localhost") (lit "https://www.youtube.com/feed") =
      some (lit "https://www.youtube.com/embed/?autoplay=1&enablejsapi=1") ∧
    lit "https://www.youtube.com/embed/?autoplay=1&enablejsapi=1" ≠
      lit "https://www.youtube.com/feed" := by
  decide

/-- C7 (amended): in the client resolver the guarded branches do fall
through: a Twitch-hostname URL whose path has no `/videos/` segment (and
which matches no other rule) falls through to the unknown-provider
fallback rather than producing a malformed Twitch result or an error.
The component getEmbedUrl's YouTube and Vimeo branches are the
exception: they return an embed URL with an empty ID instead of falling
through (see the counterexample). -/
theorem c7_twitch_fallthrough (w s : Str) (u : UrlObj)
    (h0 : (lit "http").isPrefixOf s = true)
    (h1 : parseUrl s = some u)
    (h2 : videoExtensions.any (fun e => e.isSuffixOf (toLower u.pathname)) = false)
    (h3 : extractYouTubeId s = none)
    (h4 : extractVimeoId s = none)
    (h5 : containsStr (lit "instagram.com") (toLower u.host) = false)
    (h6 : containsStr (lit "tiktok.com") (toLower u.host) = false)
    (h7 : containsStr (lit "twitch.tv") (toLower u.host) = true)
    (h8 : containsStr (lit "/videos/") u.pathname = false)
    (h9 : containsStr (lit "dailymotion.com") (toLower u.host) = false) :
    resolveVideoUrl w s =
      { ok := true, url := some s, provider := some (lit "unknown"),
        title := some (lit "Video from " ++ toLower u.host),
        embed := some { url := some s } } := by
  rw [resolveVideoUrl, normalizeUrl_http h0, h1, isDirectVideoPathQ, h1]
  simp only [Option.map_some', h2, h3, h4, h5, h6, h7, h8, h9, Bool.false_and,
    Bool.and_false, Bool.true_and, if_false]
  simp

/-- Witness for the amended C7 at https://www.twitch.tv/somestreamer. -/
theorem c7_twitch_fallthrough_witness :
    resolveVideoUrl (lit "localhost") (lit "https://www.twitch.tv/somestreamer") =
      { ok := true, url := some (lit "https://www.twitch.tv/somestreamer"),
        provider := some (lit "unknown"),
        title := some (lit "Video from " ++ toLower (lit "www.twitch.tv")),
        embed := some { url := some (lit "https://www.twitch.tv/somestreamer") } } :=
  c7_twitch_fallthrough (lit "localhost") (lit "https://www.twitch.tv/somestreamer")
    ⟨lit "https", lit "www.twitch.tv", [], lit "/somestreamer", []⟩
    (by decide) (by decide) (by decide) (by decide) (by decide) (by decide)
    (by decide) (by decide) (by decide) (by decide)

/-! ## C6: the site-specific rewrite rules -/

/-- C6 counterexample: in
`https://example.com/a-b/videos/cool-clip-123` the `/videos/` segment is
followed by the hyphenated slug `cool-clip-123`, whose token after the
last hyphen is `123`; the claim therefore expects
`https://example.com/embed/123`.  The code instead rewrites using the
FIRST hyphen-containing path segment (`a-b`) and produces
`https://example.com/embed/b`. -/
theorem c6_videos_rewrite_cex :
    afterLastHyphen (lit "cool-clip-123") = lit "123" ∧
    getEmbedUrl (lit "localhost") (lit "https://example.com/a-b/videos/cool-clip-123") =
      some (lit "https://example.com/embed/b") ∧
    lit "https://example.com/embed/b" ≠ lit "https://example.com/embed/123" := by
  decide

/-- C6 (amended): for every URL whose path contains a `/videos/` segment
and has a hyphen-containing segment, the embed builder produces
`{origin}/embed/{id}` where id is the token after the last hyphen of the
FIRST hyphen-containing path segment (which need not be the slug after
`/videos/`); and for every URL with a `view_video.php` path (and no
`/videos/` segment) and a nonempty `viewkey` query parameter X, it
produces `{origin}/embed/X`. -/
theorem c6_site_rewrites :
    (∀ w s (u : UrlObj) (p : Str), parseUrl (normalizeUrl s) = some u →
      videoExtensions.any (fun e => e.isSuffixOf (toLower u.pathname)) = false →
      containsStr (lit "/videos/") u.pathname = true →
      (splitOnChar '/' u.pathname).find? (fun q => q.contains '-') = some p →
      getEmbedUrl w s = some (origin u ++ lit "/embed/" ++ afterLastHyphen p)) ∧
    (∀ w s (u : UrlObj) (k : Str), parseUrl (normalizeUrl s) = some u →
      videoExtensions.any (fun e => e.isSuffixOf (toLower u.pathname)) = false →
      containsStr (lit "/videos/") u.pathname = false →
      containsStr (lit "/view_video.php") u.pathname = true →
      getParam u (lit "viewkey") = some k → k ≠ [] →
      getEmbedUrl w s = some (origin u ++ lit "/embed/" ++ k)) := by
  constructor
  · intro w s u p h1 h2 h3 h4
    rw [getEmbedUrl, h1]
    simp only [h2, h3, h4, if_true, if_false, Bool.false_eq_true]
  · intro w s u k h1 h2 h3 h4 h5 h6
    have hk : k.isEmpty = false := by
      cases k with
      | nil => exact absurd rfl h6
      | cons a t => rfl
    rw [getEmbedUrl, h1]
    simp only [h2, h3, h4, h5, hk, Option.isSome_some, Bool.and_self, if_true,
      if_false, Bool.false_eq_true]

/-- Witness for the amended C6: the `/videos/` rewrite at
https://example.com/videos/cool-clip-123 and the viewkey rewrite at
https://example.com/view_video.php?viewkey=ph999. -/
theorem c6_site_rewrites_witness :
    getEmbedUrl (lit "localhost") (lit "https://example.com/videos/cool-clip-123") =
      some (origin ⟨lit "https", lit "example.com", [], lit "/videos/cool-clip-123", []⟩ ++
        lit "/embed/" ++ afterLastHyphen (lit "cool-clip-123")) ∧
    getEmbedUrl (lit "localhost") (lit "https://example.com/view_video.php?viewkey=ph999") =
      some (origin ⟨lit "https", lit "example.com", [], lit "/view_video.php",
        lit "viewkey=ph999"⟩ ++ lit "/embed/" ++ lit "ph999") :=
  ⟨c6_site_rewrites.1 (lit "localhost")
      (lit "https://example.com/videos/cool-clip-123")
      ⟨lit "https", lit "example.com", [], lit "/videos/cool-clip-123", []⟩
      (lit "cool-clip-123") (by decide) (by decide) (by decide) (by decide),
    c6_site_rewrites.2 (lit "localhost")
      (lit "https://example.com/view_video.php?viewkey=ph999")
      ⟨lit "https", lit "example.com", [], lit "/view_video.php",
        lit "viewkey=ph999"⟩
      (lit "ph999") (by decide) (by decide) (by decide) (by decide) (by decide)
      (by decide)⟩

/-! ## C10: agreement of the two client-side embed derivations -/

theorem splitOnChar_no {c : Char} {l : Str} (h : ∀ a ∈ l, (a == c) = false) :
    splitOnChar c l = [l] := by
  induction l with
  | nil => rfl
  | cons a r ih =>
    rw [splitOnChar, h a (by simp)]
    simp only [Bool.false_eq_true, if_false]
    rw [ih (fun x hx => h x (by simp [hx]))]

theorem getParam_watch {u : UrlObj} {v : Str} (hq : u.query = lit "v=" ++ v)
    (hv : ∀ c ∈ v, ytChar c = true) : getParam u (lit "v") = some v := by
  rw [getParam, hq]
  rw [splitOnChar_no (fun a ha => by
    rcases List.mem_append.mp ha with h | h
    · fin_cases h <;> decide
    · exact beq_false_of_ytChar (hv a h) (by decide))]
  rw [show List.filter (fun p => !p.isEmpty) [lit "v=" ++ v] = [lit "v=" ++ v] from rfl]
  simp only [List.filter_cons, List.filter_nil]
  rw [show pairKey (lit "v=" ++ v) = lit "v" from
    takeWhile_stop (a := lit "v") _ (by decide) (by decide)]
  simp only [beq_self_eq_true, if_true, List.head?, Option.map]
  rw [pairVal]
  rw [show (lit "v=" ++ v).dropWhile (fun c => c != '=') = '=' :: v from
    dropWhile_stop (a := lit "v") _ (by decide) (by decide)]
  rfl

theorem isPrefixOf_false_of_bad {l s : Str} {x : Char} (hm : x ∈ l)
    (hx : ytChar x = false) (hs : ∀ c ∈ s, ytChar c = true) :
    l.isPrefixOf s = false := by
  cases hb : l.isPrefixOf s with
  | false => rfl
  | true =>
    have := hs x (mem_of_isPrefixOf hb hm)
    rw [this] at hx
    exact absurd hx (by simp)

theorem containsStr_false_of_bad {l s : Str} {x : Char} (hm : x ∈ l)
    (hx : ytChar x = false) (hs : ∀ c ∈ s, ytChar c = true) :
    containsStr l s = false := by
  induction s with
  | nil =>
    rw [containsStr]
    cases l with
    | nil => exact absurd hm (List.not_mem_nil x)
    | cons a t => rfl
  | cons a r ih =>
    rw [containsStr, isPrefixOf_false_of_bad hm hx hs]
    simp only [Bool.false_or]
    exact ih (fun c hc => hs c (by simp [hc]))

theorem contains_videos_slash {v : Str} (hv : ∀ c ∈ v, ytChar c = true) :
    containsStr (lit "/videos/") ('/' :: v) = false := by
  rw [containsStr]
  rw [show (lit "/videos/").isPrefixOf ('/' :: v) =
    (('/' : Char) == '/' && (lit "videos/").isPrefixOf v) from rfl]
  rw [isPrefixOf_false_of_bad (x := '/') (by decide) (by decide) hv]
  simp only [Bool.and_false, Bool.false_or]
  exact containsStr_false_of_bad (x := '/') (by decide) (by decide) hv

theorem contains_view_slash {v : Str} (hv : ∀ c ∈ v, ytChar c = true) :
    containsStr (lit "/view_video.php") ('/' :: v) = false := by
  rw [containsStr]
  rw [show (lit "/view_video.php").isPrefixOf ('/' :: v) =
    (('/' : Char) == '/' && (lit "view_video.php").isPrefixOf v) from rfl]
  rw [isPrefixOf_false_of_bad (x := '.') (by decide) (by decide) hv]
  simp only [Bool.and_false, Bool.false_or]
  exact containsStr_false_of_bad (x := '/') (by decide) (by decide) hv

theorem getEmbed_watch {w v : Str} (hv : ∀ c ∈ v, ytChar c = true) :
    getEmbedUrl w (lit "https://www.youtube.com/watch?v=" ++ v) =
      some (lit "https://www.youtube.com/embed/" ++ v ++
        lit "?autoplay=1&enablejsapi=1") := by
  rw [getEmbedUrl, normalizeUrl_http (http_prefix_of_append v (by decide) (by decide)),
    parse_watch hv]
  simp only [show videoExtensions.any
      (fun e => e.isSuffixOf (toLower (lit "/watch"))) = false from by decide,
    show containsStr (lit "/videos/") (lit "/watch") = false from by decide,
    show containsStr (lit "/view_video.php") (lit "/watch") = false from by decide,
    Bool.false_and, Bool.false_eq_true, if_false, getEmbedUrlTail,
    show containsStr (lit "youtube.com") (toLower (lit "www.youtube.com")) = true
      from by decide,
    show containsStr (lit "youtu.be") (toLower (lit "www.youtube.com")) = false
      from by decide,
    getParam_watch (u := ⟨lit "https", lit "www.youtube.com", [], lit "/watch",
      lit "v=" ++ v⟩) rfl hv,
    Bool.true_or, if_true, Option.getD_some]

theorem getEmbed_be {w v : Str} (hv : ∀ c ∈ v, ytChar c = true) :
    getEmbedUrl w (lit "https://youtu.be/" ++ v) =
      some (lit "https://www.youtube.com/embed/" ++ v ++
        lit "?autoplay=1&enablejsapi=1") := by
  rw [getEmbedUrl, normalizeUrl_http (http_prefix_of_append v (by decide) (by decide)),
    parse_be hv]
  simp only [ext_any_slash_map hv, contains_videos_slash hv, contains_view_slash hv,
    Bool.false_and, Bool.false_eq_true, if_false, getEmbedUrlTail,
    show containsStr (lit "youtube.com") (toLower (lit "youtu.be")) = false
      from by decide,
    show containsStr (lit "youtu.be") (toLower (lit "youtu.be")) = true
      from by decide,
    Bool.false_or, if_true, List.drop_succ_cons, List.drop_zero]

/-- C10 counterexample: on
`https://example.com/videos/cool-clip-123` the client resolveVideoUrl
succeeds with embed.url equal to the input (unknown-provider fallback),
while the component getEmbedUrl applies its site-specific `/videos/`
rewrite and returns `https://example.com/embed/123` — the two
client-side embed derivations are not equivalent. -/
theorem c10_embed_agreement_cex :
    (resolveVideoUrl (lit "localhost")
        (lit "https://example.com/videos/cool-clip-123")).ok = true ∧
    (resolveVideoUrl (lit "localhost")
        (lit "https://example.com/videos/cool-clip-123")).embed =
      some { url := some (lit "https://example.com/videos/cool-clip-123"),
             html := none } ∧
    getEmbedUrl (lit "localhost") (lit "https://example.com/videos/cool-clip-123") =
      some (lit "https://example.com/embed/123") ∧
    lit "https://example.com/embed/123" ≠
      lit "https://example.com/videos/cool-clip-123" := by
  decide

/-- C10 (amended): the two client-side embed derivations agree on the
families where both compute the same template: direct-file URLs (both
return the input as the playable target) and canonical YouTube
`watch?v=ID` and `youtu.be/ID` URLs (both return the canonical embed
URL); they diverge on getEmbedUrl's site-specific rewrites, shorts URLs,
empty-ID provider branches and Vimeo last-segment extraction (see the
counterexample). -/
theorem c10_embed_agreement :
    (∀ w s (u : UrlObj), (lit "http").isPrefixOf s = true → parseUrl s = some u →
      videoExtensions.any (fun e => e.isSuffixOf (toLower u.pathname)) = true →
      getEmbedUrl w s = some s ∧
      (resolveVideoUrl w s).embed = some { url := some s, html := none }) ∧
    (∀ w v, v ≠ [] → (∀ c ∈ v, ytChar c = true) →
      getEmbedUrl w (lit "https://www.youtube.com/watch?v=" ++ v) =
        some (lit "https://www.youtube.com/embed/" ++ v ++
          lit "?autoplay=1&enablejsapi=1") ∧
      (resolveVideoUrl w (lit "https://www.youtube.com/watch?v=" ++ v)).embed =
        some { url := some (lit "https://www.youtube.com/embed/" ++ v ++
          lit "?autoplay=1&enablejsapi=1"), html := none } ∧
      getEmbedUrl w (lit "https://youtu.be/" ++ v) =
        some (lit "https://www.youtube.com/embed/" ++ v ++
          lit "?autoplay=1&enablejsapi=1") ∧
      (resolveVideoUrl w (lit "https://youtu.be/" ++ v)).embed =
        some { url := some (lit "https://www.youtube.com/embed/" ++ v ++
          lit "?autoplay=1&enablejsapi=1"), html := none }) := by
  constructor
  · intro w s u h0 h1 h2
    constructor
    · rw [getEmbedUrl, normalizeUrl_http h0, h1]
      simp only [h2, if_true]
    · rw [resolve_direct h0 h1 h2]
  · intro w v hne hv
    refine ⟨getEmbed_watch hv, ?_, getEmbed_be hv, ?_⟩
    · rw [resolve_yt (http_prefix_of_append v (by decide) (by decide)) (parse_watch hv)
        (show videoExtensions.any
            (fun e => e.isSuffixOf (toLower (lit "/watch"))) = false from by decide)
        (extract_watch hv hne)]
    · rw [resolve_yt (http_prefix_of_append v (by decide) (by decide)) (parse_be hv)
        (ext_any_slash_map hv) (extract_be hv hne)]

/-- Witness for the amended C10: the direct-file agreement at
https://example.com/movie.webm and the YouTube agreement at ID jNQXAC9IVRw. -/
theorem c10_embed_agreement_witness :
    (getEmbedUrl (lit "localhost") (lit "https://example.com/movie.webm") =
      some (lit "https://example.com/movie.webm") ∧
     (resolveVideoUrl (lit "localhost") (lit "https://example.com/movie.webm")).embed =
      some { url := some (lit "https://example.com/movie.webm"), html := none }) ∧
    (getEmbedUrl (lit "localhost")
        (lit "https://www.youtube.com/watch?v=" ++ lit "jNQXAC9IVRw") =
      some (lit "https://www.youtube.com/embed/" ++ lit "jNQXAC9IVRw" ++
        lit "?autoplay=1&enablejsapi=1") ∧
     (resolveVideoUrl (lit "localhost")
        (lit "https://www.youtube.com/watch?v=" ++ lit "jNQXAC9IVRw")).embed =
      some { url := some (lit "https://www.youtube.com/embed/" ++ lit "jNQXAC9IVRw" ++
        lit "?autoplay=1&enablejsapi=1"), html := none } ∧
     getEmbedUrl (lit "localhost") (lit "https://youtu.be/" ++ lit "jNQXAC9IVRw") =
      some (lit "https://www.youtube.com/embed/" ++ lit "jNQXAC9IVRw" ++
        lit "?autoplay=1&enablejsapi=1") ∧
     (resolveVideoUrl (lit "localhost")
        (lit "https://youtu.be/" ++ lit "jNQXAC9IVRw")).embed =
      some { url := some (lit "https://www.youtube.com/embed/" ++ lit "jNQXAC9IVRw" ++
        lit "?autoplay=1&enablejsapi=1"), html := none }) :=
  ⟨c10_embed_agreement.1 (lit "localhost") (lit "https://example.com/movie.webm")
      ⟨lit "https", lit "example.com", [], lit "/movie.webm", []⟩
      (by decide) (by decide) (by decide),
    c10_embed_agreement.2 (lit "localhost") (lit "jNQXAC9IVRw") (by decide) (by decide)⟩

/-! ## C5: cache idempotence of the server resolver -/

theorem isHttpUrl_parse {s : Str} (h : isHttpUrl s = true) :
    ∃ u, parseUrl s = some u := by
  rw [isHttpUrl] at h
  cases hu : parseUrl s with
  | none =>
    rw [hu] at h
    exact absurd h (by simp)
  | some u => exact ⟨u, rfl⟩

/-- C5 counterexample: fetching https://example.org/page succeeds with
an empty HTML body; the handler caches the empty string, but the cache
read-back `if (cached)` is a JavaScript truthiness test, so the cached
empty payload is never served and the second resolve fetches the same
resource over the network again — two underlying fetches for one
distinct, successfully fetched resource URL, contradicting the claimed
at-most-one bound (the two responses are nevertheless identical). -/
theorem c5_cache_idempotence_cex :
    emptyPageEnvH (lit "https://example.org/page") = some [] ∧
    (handler noEnvJ emptyPageEnvH {} (lit "https://example.org/page")).1 =
      (handler noEnvJ emptyPageEnvH
        (handler noEnvJ emptyPageEnvH {} (lit "https://example.org/page")).2.1
        (lit "https://example.org/page")).1 ∧
    ((handler noEnvJ emptyPageEnvH {} (lit "https://example.org/page")).2.2 ++
      (handler noEnvJ emptyPageEnvH
        (handler noEnvJ emptyPageEnvH {} (lit "https://example.org/page")).2.1
        (lit "https://example.org/page")).2.2).count
      (Ev.html (lit "https://example.org/page")) = 2 := by
  decide

/-- C5 (amended): calling resolve twice on the same input URL within the
cache TTL (the regime the model captures: no expiry, and the 500-entry
capacity is never reached) produces identical results; and every
resource whose fetch succeeds with a TRUTHY payload — a JSON object for
the oEmbed fetch, a nonempty string for the HTML fetch — is fetched over
the network at most once across the two calls.  Falsy payloads are
cached but never served back (the `if (cached)` truthiness test), and
failed fetches are not cached, so both are refetched by the second call
(see the counterexample). -/
theorem c5_cache_idempotence (envJ : Str → Option JsonVal) (envH : Str → Option Str)
    (q : Str) :
    (handler envJ envH {} q).1 =
      (handler envJ envH (handler envJ envH {} q).2.1 q).1 ∧
    (∀ x (d : OEmbed), envJ x = some (JsonVal.obj d) →
      ((handler envJ envH {} q).2.2 ++
        (handler envJ envH (handler envJ envH {} q).2.1 q).2.2).count (Ev.json x) ≤ 1) ∧
    (∀ x (d : Str), envH x = some d → d ≠ [] →
      ((handler envJ envH {} q).2.2 ++
        (handler envJ envH (handler envJ envH {} q).2.1 q).2.2).count (Ev.html x) ≤ 1) := by
  cases h0 : isHttpUrl (jsTrim q) with
  | false => simp [handler, h0]
  | true =>
    rcases isHttpUrl_parse h0 with ⟨u, hu⟩
    cases hd : srvIsDirectVideoPath u.pathname with
    | true => simp [handler, h0, hu, hd]
    | false =>
      cases he : extractYouTubeId (jsTrim q) with
      | some i => simp [handler, h0, hu, hd, he]
      | none =>
        cases hoe : knownOEmbed u (jsTrim q) with
        | some oe =>
          cases hej : envJ oe with
          | none =>
            cases heh : envH (jsTrim q) with
            | none =>
              refine ⟨?_, ?_, ?_⟩
              · simp [handler, handlerFallback, fetchJson, fetchHtml, lookupA,
                  jsTruthyJson, List.find?, h0, hu, hd, he, hoe, hej, heh]
              · intro x d hxd
                by_cases hxe : x = oe
                · subst hxe
                  rw [hej] at hxd
                  exact absurd hxd (by simp)
                · simp [handler, handlerFallback, fetchJson, fetchHtml, lookupA,
                    jsTruthyJson, List.find?, h0, hu, hd, he, hoe, hej, heh,
                    List.count_cons, List.count_nil, hxe, Ne.symm hxe]
              · intro x d hxd hdn
                by_cases hxe : x = jsTrim q
                · subst hxe
                  rw [heh] at hxd
                  exact absurd hxd (by simp)
                · simp [handler, handlerFallback, fetchJson, fetchHtml, lookupA,
                    jsTruthyJson, List.find?, h0, hu, hd, he, hoe, hej, heh,
                    List.count_cons, List.count_nil, hxe, Ne.symm hxe]
            | some ht =>
              by_cases hte : ht = []
              · subst hte
                refine ⟨?_, ?_, ?_⟩
                · simp [handler, handlerFallback, fetchJson, fetchHtml, lookupA,
                    jsTruthyJson, List.find?, h0, hu, hd, he, hoe, hej, heh,
                    show parseForEmbeds [] = ({} : ParsedPage) from by decide]
                · intro x d hxd
                  by_cases hxe : x = oe
                  · subst hxe
                    rw [hej] at hxd
                    exact absurd hxd (by simp)
                  · simp [handler, handlerFallback, fetchJson, fetchHtml, lookupA,
                      jsTruthyJson, List.find?, h0, hu, hd, he, hoe, hej, heh,
                      show parseForEmbeds [] = ({} : ParsedPage) from by decide,
                      List.count_cons, List.count_nil, hxe, Ne.symm hxe]
                · intro x d hxd hdn
                  by_cases hxe : x = jsTrim q
                  · subst hxe
                    rw [heh] at hxd
                    injection hxd with h2
                    exact absurd h2.symm hdn
                  · simp [handler, handlerFallback, fetchJson, fetchHtml, lookupA,
                      jsTruthyJson, List.find?, h0, hu, hd, he, hoe, hej, heh,
                      show parseForEmbeds [] = ({} : ParsedPage) from by decide,
                      List.count_cons, List.count_nil, hxe, Ne.symm hxe]
              · have hte2 : ht.isEmpty = false := by
                  cases ht with
                  | nil => exact absurd rfl hte
                  | cons a t => rfl
                by_cases hpe : (parseForEmbeds ht).embedUrl = none ∧
                    (parseForEmbeds ht).videos = []
                · refine ⟨?_, ?_, ?_⟩
                  · simp [handler, handlerFallback, fetchJson, fetchHtml, lookupA,
                      jsTruthyJson, List.find?, h0, hu, hd, he, hoe, hej, heh, hte2,
                      hpe]
                  · intro x d hxd
                    by_cases hxe : x = oe
                    · subst hxe
                      rw [hej] at hxd
                      exact absurd hxd (by simp)
                    · simp [handler, handlerFallback, fetchJson, fetchHtml, lookupA,
                        jsTruthyJson, List.find?, h0, hu, hd, he, hoe, hej, heh, hte2,
                        hpe, List.count_cons, List.count_nil, hxe, Ne.symm hxe]
                  · intro x d hxd hdn
                    by_cases hxe : x = jsTrim q
                    · subst hxe
                      simp [handler, handlerFallback, fetchJson, fetchHtml, lookupA,
                        jsTruthyJson, List.find?, h0, hu, hd, he, hoe, hej, heh, hte2,
                        hpe, List.count_cons, List.count_nil]
                    · simp [handler, handlerFallback, fetchJson, fetchHtml, lookupA,
                        jsTruthyJson, List.find?, h0, hu, hd, he, hoe, hej, heh, hte2,
                        hpe, List.count_cons, List.count_nil, hxe, Ne.symm hxe]
                · refine ⟨?_, ?_, ?_⟩
                  · simp [handler, handlerFallback, fetchJson, fetchHtml, lookupA,
                      jsTruthyJson, List.find?, h0, hu, hd, he, hoe, hej, heh, hte2,
                      hpe]
                  · intro x d hxd
                    by_cases hxe : x = oe
                    · subst hxe
                      rw [hej] at hxd
                      exact absurd hxd (by simp)
                    · simp [handler, handlerFallback, fetchJson, fetchHtml, lookupA,
                        jsTruthyJson, List.find?, h0, hu, hd, he, hoe, hej, heh, hte2,
                        hpe, List.count_cons, List.count_nil, hxe, Ne.symm hxe]
                  · intro x d hxd hdn
                    by_cases hxe : x = jsTrim q
                    · subst hxe
                      simp [handler, handlerFallback, fetchJson, fetchHtml, lookupA,
                        jsTruthyJson, List.find?, h0, hu, hd, he, hoe, hej, heh, hte2,
                        hpe, List.count_cons, List.count_nil]
                    · simp [handler, handlerFallback, fetchJson, fetchHtml, lookupA,
                        jsTruthyJson, List.find?, h0, hu, hd, he, hoe, hej, heh, hte2,
                        hpe, List.count_cons, List.count_nil, hxe, Ne.symm hxe]
          | some val =>
            cases val with
            | obj d0 =>
              refine ⟨?_, ?_, ?_⟩
              · simp [handler, handlerFallback, fetchJson, fetchHtml, lookupA,
                  jsTruthyJson, List.find?, h0, hu, hd, he, hoe, hej]
              · intro x d hxd
                by_cases hxe : x = oe
                · subst hxe
                  simp [handler, handlerFallback, fetchJson, fetchHtml, lookupA,
                    jsTruthyJson, List.find?, h0, hu, hd, he, hoe, hej,
                    List.count_cons, List.count_nil]
                · simp [handler, handlerFallback, fetchJson, fetchHtml, lookupA,
                    jsTruthyJson, List.find?, h0, hu, hd, he, hoe, hej,
                    List.count_cons, List.count_nil, hxe, Ne.symm hxe]
              · intro x d hxd hdn
                simp [handler, handlerFallback, fetchJson, fetchHtml, lookupA,
                  jsTruthyJson, List.find?, h0, hu, hd, he, hoe, hej,
                  List.count_cons, List.count_nil]
            | nullv =>
              cases heh : envH (jsTrim q) with
              | none =>
                refine ⟨?_, ?_, ?_⟩
                · simp [handler, handlerFallback, fetchJson, fetchHtml, lookupA,
                    jsTruthyJson, List.find?, h0, hu, hd, he, hoe, hej, heh]
                · intro x d hxd
                  by_cases hxe : x = oe
                  · subst hxe
                    rw [hej] at hxd
                    exact absurd hxd (by simp)
                  · simp [handler, handlerFallback, fetchJson, fetchHtml, lookupA,
                      jsTruthyJson, List.find?, h0, hu, hd, he, hoe, hej, heh,
                      List.count_cons, List.count_nil, hxe, Ne.symm hxe]
                · intro x d hxd hdn
                  by_cases hxe : x = jsTrim q
                  · subst hxe
                    rw [heh] at hxd
                    exact absurd hxd (by simp)
                  · simp [handler, handlerFallback, fetchJson, fetchHtml, lookupA,
                      jsTruthyJson, List.find?, h0, hu, hd, he, hoe, hej, heh,
                      List.count_cons, List.count_nil, hxe, Ne.symm hxe]
              | some ht =>
                by_cases hte : ht = []
                · subst hte
                  refine ⟨?_, ?_, ?_⟩
                  · simp [handler, handlerFallback, fetchJson, fetchHtml, lookupA,
                      jsTruthyJson, List.find?, h0, hu, hd, he, hoe, hej, heh,
                      show parseForEmbeds [] = ({} : ParsedPage) from by decide]
                  · intro x d hxd
                    by_cases hxe : x = oe
                    · subst hxe
                      rw [hej] at hxd
                      exact absurd hxd (by simp)
                    · simp [handler, handlerFallback, fetchJson, fetchHtml, lookupA,
                        jsTruthyJson, List.find?, h0, hu, hd, he, hoe, hej, heh,
                        show parseForEmbeds [] = ({} : ParsedPage) from by decide,
                        List.count_cons, List.count_nil, hxe, Ne.symm hxe]
                  · intro x d hxd hdn
                    by_cases hxe : x = jsTrim q
                    · subst hxe
                      rw [heh] at hxd
                      injection hxd with h2
                      exact absurd h2.symm hdn
                    · simp [handler, handlerFallback, fetchJson, fetchHtml, lookupA,
                        jsTruthyJson, List.find?, h0, hu, hd, he, hoe, hej, heh,
                        show parseForEmbeds [] = ({} : ParsedPage) from by decide,
                        List.count_cons, List.count_nil, hxe, Ne.symm hxe]
                · have hte2 : ht.isEmpty = false := by
                    cases ht with
                    | nil => exact absurd rfl hte
                    | cons a t => rfl
                  by_cases hpe : (parseForEmbeds ht).embedUrl = none ∧
                      (parseForEmbeds ht).videos = []
                  · refine ⟨?_, ?_, ?_⟩
                    · simp [handler, handlerFallback, fetchJson, fetchHtml, lookupA,
                        jsTruthyJson, List.find?, h0, hu, hd, he, hoe, hej, heh, hte2,
                        hpe]
                    · intro x d hxd
                      by_cases hxe : x = oe
                      · subst hxe
                        rw [hej] at hxd
                        exact absurd hxd (by simp)
                      · simp [handler, handlerFallback, fetchJson, fetchHtml, lookupA,
                          jsTruthyJson, List.find?, h0, hu, hd, he, hoe, hej, heh,
                          hte2, hpe, List.count_cons, List.count_nil, hxe,
                          Ne.symm hxe]
                    · intro x d hxd hdn
                      by_cases hxe : x = jsTrim q
                      · subst hxe
                        simp [handler, handlerFallback, fetchJson, fetchHtml, lookupA,
                          jsTruthyJson, List.find?, h0, hu, hd, he, hoe, hej, heh,
                          hte2, hpe, List.count_cons, List.count_nil]
                      · simp [handler, handlerFallback, fetchJson, fetchHtml, lookupA,
                          jsTruthyJson, List.find?, h0, hu, hd, he, hoe, hej, heh,
                          hte2, hpe, List.count_cons, List.count_nil, hxe,
                          Ne.symm hxe]
                  · refine ⟨?_, ?_, ?_⟩
                    · simp [handler, handlerFallback, fetchJson, fetchHtml, lookupA,
                        jsTruthyJson, List.find?, h0, hu, hd, he, hoe, hej, heh, hte2,
                        hpe]
                    · intro x d hxd
                      by_cases hxe : x = oe
                      · subst hxe
                        rw [hej] at hxd
                        exact absurd hxd (by simp)
                      · simp [handler, handlerFallback, fetchJson, fetchHtml, lookupA,
                          jsTruthyJson, List.find?, h0, hu, hd, he, hoe, hej, heh,
                          hte2, hpe, List.count_cons, List.count_nil, hxe,
                          Ne.symm hxe]
                    · intro x d hxd hdn
                      by_cases hxe : x = jsTrim q
                      · subst hxe
                        simp [handler, handlerFallback, fetchJson, fetchHtml, lookupA,
                          jsTruthyJson, List.find?, h0, hu, hd, he, hoe, hej, heh,
                          hte2, hpe, List.count_cons, List.count_nil]
                      · simp [handler, handlerFallback, fetchJson, fetchHtml, lookupA,
                          jsTruthyJson, List.find?, h0, hu, hd, he, hoe, hej, heh,
                          hte2, hpe, List.count_cons, List.count_nil, hxe,
                          Ne.symm hxe]
            | prim =>
              refine ⟨?_, ?_, ?_⟩
              · simp [handler, handlerFallback, fetchJson, fetchHtml, lookupA,
                  jsTruthyJson, List.find?, h0, hu, hd, he, hoe, hej]
              · intro x d hxd
                by_cases hxe : x = oe
                · subst hxe
                  rw [hej] at hxd
                  exact absurd hxd (by simp)
                · simp [handler, handlerFallback, fetchJson, fetchHtml, lookupA,
                    jsTruthyJson, List.find?, h0, hu, hd, he, hoe, hej,
                    List.count_cons, List.count_nil, hxe, Ne.symm hxe]
              · intro x d hxd hdn
                simp [handler, handlerFallback, fetchJson, fetchHtml, lookupA,
                  jsTruthyJson, List.find?, h0, hu, hd, he, hoe, hej,
                  List.count_cons, List.count_nil]
        | none =>
          cases heh : envH (jsTrim q) with
          | none =>
            refine ⟨?_, ?_, ?_⟩
            · simp [handler, handlerFallback, fetchHtml, lookupA, List.find?, h0, hu,
                hd, he, hoe, heh]
            · intro x d hxd
              simp [handler, handlerFallback, fetchHtml, lookupA, List.find?, h0, hu,
                hd, he, hoe, heh, List.count_cons, List.count_nil]
            · intro x d hxd hdn
              by_cases hxe : x = jsTrim q
              · subst hxe
                rw [heh] at hxd
                exact absurd hxd (by simp)
              · simp [handler, handlerFallback, fetchHtml, lookupA, List.find?, h0,
                  hu, hd, he, hoe, heh, List.count_cons, List.count_nil, hxe,
                  Ne.symm hxe]
          | some ht =>
            by_cases hte : ht = []
            · subst hte
              refine ⟨?_, ?_, ?_⟩
              · simp [handler, handlerFallback, fetchHtml, lookupA, List.find?, h0,
                  hu, hd, he, hoe, heh,
                  show parseForEmbeds [] = ({} : ParsedPage) from by decide]
              · intro x d hxd
                simp [handler, handlerFallback, fetchHtml, lookupA, List.find?, h0,
                  hu, hd, he, hoe, heh,
                  show parseForEmbeds [] = ({} : ParsedPage) from by decide,
                  List.count_cons, List.count_nil]
              · intro x d hxd hdn
                by_cases hxe : x = jsTrim q
                · subst hxe
                  rw [heh] at hxd
                  injection hxd with h2
                  exact absurd h2.symm hdn
                · simp [handler, handlerFallback, fetchHtml, lookupA, List.find?, h0,
                    hu, hd, he, hoe, heh,
                    show parseForEmbeds [] = ({} : ParsedPage) from by decide,
                    List.count_cons, List.count_nil, hxe, Ne.symm hxe]
            · have hte2 : ht.isEmpty = false := by
                cases ht with
                | nil => exact absurd rfl hte
                | cons a t => rfl
              by_cases hpe : (parseForEmbeds ht).embedUrl = none ∧
                  (parseForEmbeds ht).videos = []
              · refine ⟨?_, ?_, ?_⟩
                · simp [handler, handlerFallback, fetchHtml, lookupA, List.find?, h0,
                    hu, hd, he, hoe, heh, hte2, hpe]
                · intro x d hxd
                  simp [handler, handlerFallback, fetchHtml, lookupA, List.find?, h0,
                    hu, hd, he, hoe, heh, hte2, hpe, List.count_cons, List.count_nil]
                · intro x d hxd hdn
                  by_cases hxe : x = jsTrim q
                  · subst hxe
                    simp [handler, handlerFallback, fetchHtml, lookupA, List.find?,
                      h0, hu, hd, he, hoe, heh, hte2, hpe, List.count_cons,
                      List.count_nil]
                  · simp [handler, handlerFallback, fetchHtml, lookupA, List.find?,
                      h0, hu, hd, he, hoe, heh, hte2, hpe, List.count_cons,
                      List.count_nil, hxe, Ne.symm hxe]
              · refine ⟨?_, ?_, ?_⟩
                · simp [handler, handlerFallback, fetchHtml, lookupA, List.find?, h0,
                    hu, hd, he, hoe, heh, hte2, hpe]
                · intro x d hxd
                  simp [handler, handlerFallback, fetchHtml, lookupA, List.find?, h0,
                    hu, hd, he, hoe, heh, hte2, hpe, List.count_cons, List.count_nil]
                · intro x d hxd hdn
                  by_cases hxe : x = jsTrim q
                  · subst hxe
                    simp [handler, handlerFallback, fetchHtml, lookupA, List.find?,
                      h0, hu, hd, he, hoe, heh, hte2, hpe, List.count_cons,
                      List.count_nil]
                  · simp [handler, handlerFallback, fetchHtml, lookupA, List.find?,
                      h0, hu, hd, he, hoe, heh, hte2, hpe, List.count_cons,
                      List.count_nil, hxe, Ne.symm hxe]

/-- Witness for the amended C5: resolving the SoundCloud input twice
against a network whose oEmbed endpoint answers with a (truthy) JSON
object gives the same response, and the endpoint is fetched at most
once. -/
theorem c5_cache_idempotence_witness :
    (handler scEnvJ noEnvH {} scTarget).1 =
      (handler scEnvJ noEnvH (handler scEnvJ noEnvH {} scTarget).2.1 scTarget).1 ∧
    ((handler scEnvJ noEnvH {} scTarget).2.2 ++
      (handler scEnvJ noEnvH (handler scEnvJ noEnvH {} scTarget).2.1 scTarget).2.2).count
        (Ev.json scOeUrl) ≤ 1 :=
  ⟨(c5_cache_idempotence scEnvJ noEnvH scTarget).1,
   (c5_cache_idempotence scEnvJ noEnvH scTarget).2.1 scOeUrl {} (by decide)⟩
